import Mathlib

/-!
# multilayerlayout3d: a shallow embedding of `lib/multilayerlayout3d.js`

The layout keeps one physics simulator per graph layer, one body per node and one
spring per link that `checkLinkLayer` accepts.  The graph (`ngraph.graph`) and the
simulators (`ngraph.physics.simulator`) are external collaborators:

* the graph is a value of `Graph` (an ordered layer list, nodes, links), and
  `graph.getLinks(id)` is the link list of the node, as in `ngraph.graph`;
* what the simulators do is a parameter `Engine`, over which every theorem quantifies;
  every simulator comes from the same factory call and so has the same members, which
  may be setters, other methods or values that are no functions.

Modelling choices:

* JavaScript numbers are exact rationals, and `-Infinity` is the bottom element that
  `Math.max` starts from;
* node and link identifiers are natural numbers; layer identifiers are JavaScript
  values (`undefined`, `null`, numbers, strings), compared strictly by `indexOf` and
  loosely, with `==`, by `checkLinkLayer`; the conversion `ToNumber` that `==` applies
  to a string is a field of `Engine`, so that every theorem holds whatever it gives;
* bodies, which JavaScript shares by reference, live in a store addressed by
  allocation order; springs are never changed after `addSpring` and are plain values;
* a JavaScript exception is an explicit outcome that keeps the state reached when it
  was thrown;
* the calls `step`, `fire` and the member calls of `updatePhysics` that simulators
  receive are recorded in a log, so that their number and order can be stated;
* `console.log` and the event subscriptions of `listenToEvents` have no effect on the
  functions modelled here and are left out.
-/

namespace MultilayerLayout3d

/-! ## Values -/

/-- The exceptions the code can raise: the two built-in kinds and `new Error(msg)`. -/
inductive JSError where
  | TypeError
  | ReferenceError
  | Error (message : String)
  deriving DecidableEq, Repr

/-- A JavaScript value that serves as a layer identifier: `undefined`, `null`, a number
or a string.  Two values are strictly equal (`===`, the comparison of `indexOf`)
exactly when they are equal as values of this type. -/
inductive JSValue where
  | undefined
  | null
  | number (n : ℚ)
  | string (s : String)
  deriving DecidableEq, Repr

/-- The comparison `a == b`.  `undefined` and `null` are equal to each other and to
nothing else; a number and a string are compared after `ToNumber` of the string, which
is the argument `toNumber` (`none` when it gives `NaN`). -/
def looseEq (toNumber : String → Option ℚ) : JSValue → JSValue → Bool
  | .undefined, .undefined => true
  | .undefined, .null => true
  | .null, .undefined => true
  | .null, .null => true
  | .number m, .number n => decide (m = n)
  | .string s, .string t => decide (s = t)
  | .number m, .string t => decide (toNumber t = some m)
  | .string s, .number n => decide (toNumber s = some n)
  | _, _ => false

/-- A position vector of the simulator. -/
structure Vector3d where
  x : ℚ
  y : ℚ
  z : ℚ
  deriving DecidableEq, Repr

/-- A link of the graph. -/
structure Link where
  id : Nat
  fromId : Nat
  toId : Nat
  length : Option ℚ
  deriving DecidableEq, Repr

/-- A node of the graph.  `layer` is `node.data.get('layer').get('id')`, absent when
the layer attribute is missing (the value may itself be `undefined`, when the layer
has no id); `links` is `node.links`, absent when the graph keeps no link list for the
node; `isPinned` is `node.isPinned || node.data.isPinned`. -/
structure Node where
  id : Nat
  layer : Option JSValue
  position : Option Vector3d
  links : Option (List Link)
  isPinned : Bool
  deriving DecidableEq, Repr

/-- The graph as the layout reads it: `graph.layers`, the nodes visited by
`forEachNode` and the links visited by `forEachLink`, in visiting order. -/
structure Graph where
  layers : List JSValue
  nodes : List Node
  links : List Link
  deriving DecidableEq, Repr

/-- The lookup `graph.getNode(nodeId)`. -/
def Graph.getNode (graph : Graph) (nodeId : Nat) : Option Node :=
  graph.nodes.find? (fun n => n.id == nodeId)

/-- The lookup `graph.getLinks(nodeId)`: the link list of the node, if any. -/
def Graph.getLinks (graph : Graph) (nodeId : Nat) : Option (List Link) :=
  (graph.getNode nodeId).bind Node.links

/-- A body of a simulator. -/
structure Body where
  pos : Vector3d
  mass : ℚ
  isPinned : Bool
  deriving DecidableEq, Repr

/-- A spring of a simulator; `fromBody` and `toBody` are references into the body
store (the fields `spring.from` and `spring.to`). -/
structure Spring where
  fromBody : Nat
  toBody : Nat
  length : Option ℚ
  deriving DecidableEq, Repr

/-- A bounding box as returned by `getBBox`. -/
structure BBox where
  x1 : ℚ
  y1 : ℚ
  x2 : ℚ
  y2 : ℚ
  deriving DecidableEq, Repr

/-- The state of one physics simulator: the bodies and springs added to it, the
settings applied through its setter methods and the number of `step()` calls it
has received. -/
structure Simulator where
  bodies : List Nat
  springs : List Spring
  settings : List (String × ℚ)
  steps : Nat
  deriving DecidableEq, Repr

/-- What the property `physicsSimulators[i][key]` of a simulator object is. -/
inductive Member where
  /-- The property is undefined or another falsy value. -/
  | absent
  /-- A truthy value that is no function, as the array `bodies`: calling it is a
  TypeError. -/
  | value
  /-- A setter of a physics setting. -/
  | setter
  /-- The method `step` itself. -/
  | step
  /-- Another function of the simulator object; called with a setting value it returns
  normally (`none`) or throws. -/
  | method (error : Option JSError)
  deriving DecidableEq, Repr

/-- What the module delegates: the members that a simulator object has besides `step`
(`member`), the physics (where a new body is best placed, how a step moves a body,
what a step reports, what the bounding box is; the first argument of these four is
the layer index of the simulator), and the conversion `ToNumber` of the JavaScript
runtime on strings (`none` for `NaN`), which `==` applies when it compares a string
with a number. -/
structure Engine where
  member : String → Member
  toNumber : String → Option ℚ
  getBestNewBodyPosition : Nat → List Body → List Body → Vector3d
  integrate : Nat → Nat → List Body → Body → Vector3d
  stepResult : Nat → Nat → Bool
  getBBox : Nat → List Body → BBox

/-- A call received by the simulator of layer `layer`. -/
inductive SimCall where
  | step (layer : Nat)
  | fire (layer : Nat) (stable : Bool)
  | invoke (layer : Nat) (key : String) (value : ℚ)
  deriving DecidableEq, Repr

/-- The closure state of one layout created by `createLayout`: the variables `graph`,
`interLayerDistance`, `physicsSimulators`, `nodeBodies` and `springs`, the store of
the body objects (`bodies`, of which the first `nextBody` cells are allocated) and the
log of the calls that the simulators received. -/
structure Layout where
  graph : Graph
  interLayerDistance : ℚ
  physicsSimulators : List Simulator
  bodies : Nat → Body
  nextBody : Nat
  nodeBodies : Nat → Option Nat
  springs : Nat → Option Spring
  calls : List SimCall

/-- The result of running a piece of the layout's code: it returns a value or throws,
and in both cases leaves a state. -/
inductive Outcome (α : Type) where
  | ok (value : α) (state : Layout)
  | throw (error : JSError) (state : Layout)

/-- The state an outcome leaves. -/
def Outcome.state {α : Type} : Outcome α → Layout
  | .ok _ L => L
  | .throw _ L => L

/-- The exception of an outcome, if it threw. -/
def Outcome.error? {α : Type} : Outcome α → Option JSError
  | .ok _ _ => none
  | .throw e _ => some e

/-- The value of an outcome, if it returned. -/
def Outcome.value? {α : Type} : Outcome α → Option α
  | .ok a _ => some a
  | .throw _ _ => none

/-- A computation over the layout state that may throw. -/
def Run (α : Type) : Type := Layout → Outcome α

/-- Sequencing: an exception skips the rest and keeps the state reached. -/
def Run.bind {α β : Type} (m : Run α) (f : α → Run β) : Run β := fun L =>
  match m L with
  | .ok a L1 => f a L1
  | .throw e L1 => .throw e L1

instance : Monad Run where
  pure a := fun L => .ok a L
  bind := Run.bind

/-- Raise an exception. -/
def throwJS {α : Type} (e : JSError) : Run α := fun L => .throw e L

/-- Read the state. -/
def getState : Run Layout := fun L => .ok L L

/-- Change the state. -/
def modifyState (f : Layout → Layout) : Run Unit := fun L => .ok () (f L)

/-- Run a computation that reads the state only. -/
def liftExcept {α : Type} (f : Layout → Except JSError α) : Run α := fun L =>
  match f L with
  | .ok a => .ok a L
  | .error e => .throw e L

/-! ## Private functions of the closure -/

/-- The expression `node.data.get('layer').get('id')` on the result of `getNode`: a
TypeError when the node is undefined or has no layer attribute. -/
def layerId (node : Option Node) : Except JSError JSValue :=
  match node with
  | none => .error .TypeError
  | some n =>
    match n.layer with
    | none => .error .TypeError
    | some id => .ok id

/-- The call `Array.prototype.indexOf`: the first index of a value strictly equal to
`id`, or `-1`. -/
def indexOf (layers : List JSValue) (id : JSValue) : Int :=
  if id ∈ layers then (layers.indexOf id : Int) else -1

/-- The function `getLayer(nodeId)`. -/
def getLayer (graph : Graph) (nodeId : Nat) : Except JSError Int :=
  match layerId (graph.getNode nodeId) with
  | .error e => .error e
  | .ok id => .ok (indexOf graph.layers id)

/-- The function `checkLinkLayer(node1, node2, layer)`, which compares with `==`;
`layer` is `undefined` when the caller passes none.  The right operand of `&&` is
evaluated only when the left one is true. -/
def checkLinkLayer (toNumber : String → Option ℚ) (node1 node2 : Option Node)
    (layer : JSValue) : Except JSError Bool :=
  match layerId node1 with
  | .error e => .error e
  | .ok id1 =>
    if looseEq toNumber id1 layer then
      match layerId node2 with
      | .error e => .error e
      | .ok id2 => .ok (looseEq toNumber id2 layer)
    else .ok false

/-- The assignment `res[i] = link` on a JavaScript array with holes. -/
def setIndex (res : List (Option Link)) (i : Nat) (link : Link) : List (Option Link) :=
  if i < res.length then res.set i (some link)
  else res ++ List.replicate (i - res.length) none ++ [some link]

/-- The loop of `getSameLayerLinks` from index `i` on. -/
def getSameLayerLinksLoop (toNumber : String → Option ℚ) (graph : Graph) (layer : JSValue) :
    List Link → Nat → List (Option Link) → Except JSError (List (Option Link))
  | [], _, res => .ok res
  | link :: rest, i, res =>
    match checkLinkLayer toNumber (graph.getNode link.toId) (graph.getNode link.fromId)
        layer with
    | .error e => .error e
    | .ok true =>
      getSameLayerLinksLoop toNumber graph layer rest (i + 1) (setIndex res i link)
    | .ok false => getSameLayerLinksLoop toNumber graph layer rest (i + 1) res

/-- The function `getSameLayerLinks(node, layer)`, called where `node.links` is
defined. -/
def getSameLayerLinks (toNumber : String → Option ℚ) (graph : Graph) (links : List Link)
    (layer : JSValue) : Except JSError (List (Option Link)) :=
  getSameLayerLinksLoop toNumber graph layer links 0 []

/-- The loop of `getNeighborBodies` over the first `maxNeighbors` entries of
`sameLayerLinks`; a hole of the array makes `link.fromId` a TypeError. -/
def neighborLoop (nodeBodies : Nat → Option Nat) (nodeId : Nat) :
    List (Option Link) → List Nat → Except JSError (List Nat)
  | [], neighbors => .ok neighbors
  | none :: _, _ => .error .TypeError
  | some link :: rest, neighbors =>
    let otherBody :=
      if link.fromId ≠ nodeId then nodeBodies link.fromId else nodeBodies link.toId
    match otherBody with
    | some b => neighborLoop nodeBodies nodeId rest (neighbors ++ [b])
    | none => neighborLoop nodeBodies nodeId rest neighbors

/-- The function `getNeighborBodies(node, layer)`: references of the bodies of up to
two same-layer neighbours. -/
def getNeighborBodies (E : Engine) (L : Layout) (node : Node) (layer : JSValue) :
    Except JSError (List Nat) :=
  match node.links with
  | none => .ok []
  | some links =>
    match getSameLayerLinks E.toNumber L.graph links layer with
    | .error e => .error e
    | .ok sameLayerLinks =>
      neighborLoop L.nodeBodies node.id
        (sameLayerLinks.take (min sameLayerLinks.length 2)) []

/-- The function `nodeMass(nodeId)`. -/
def nodeMass (graph : Graph) (nodeId : Nat) : ℚ :=
  match graph.getLinks nodeId with
  | none => 1
  | some links => 1 + (links.length : ℚ) / 4

/-- The function `updateBodyMass(nodeId)`. -/
def updateBodyMass (nodeId : Nat) : Run Unit := fun L =>
  match L.nodeBodies nodeId with
  | none => .throw .TypeError L
  | some b =>
    .ok () { L with
      bodies := Function.update L.bodies b
        { L.bodies b with mass := nodeMass L.graph nodeId } }

/-- The expression `physicsSimulators[layer]`, with its index when it is defined;
`layer` is `none` when the caller passed no layer. -/
def simulatorAt (L : Layout) (layer : Option Int) : Option (Nat × Simulator) :=
  match layer with
  | some (Int.ofNat i) => (L.physicsSimulators[i]?).map (fun s => (i, s))
  | _ => none

/-- The simulator method `addBodyAt(pos)` of the simulator with index `i`: a new body
object, appended to the simulator's bodies. -/
def addBodyAt (i : Nat) (sim : Simulator) (pos : Vector3d) : Run Nat := fun L =>
  .ok L.nextBody { L with
    bodies := Function.update L.bodies L.nextBody { pos := pos, mass := 1, isPinned := false }
    nextBody := L.nextBody + 1
    physicsSimulators :=
      L.physicsSimulators.set i { sim with bodies := sim.bodies ++ [L.nextBody] } }

/-- The simulator method `addSpring(fromBody, toBody, length)` of the simulator with
index `i`. -/
def addSpring (i : Nat) (sim : Simulator) (fromBody toBody : Nat) (length : Option ℚ) :
    Run Spring := fun L =>
  let spring : Spring := { fromBody := fromBody, toBody := toBody, length := length }
  .ok spring { L with
    physicsSimulators :=
      L.physicsSimulators.set i { sim with springs := sim.springs ++ [spring] } }

/-- The function `isNodeOriginallyPinned(node)`. -/
def isNodeOriginallyPinned (node : Node) : Bool := node.isPinned

/-- The start position of a new body in `initBody`: `node.position`, or else
`physicsSimulators[layer].getBestNewBodyPosition(getNeighborBodies(node))`. -/
def newBodyPosition (E : Engine) (L : Layout) (node : Node) (layer : Option Int) :
    Except JSError Vector3d :=
  match node.position with
  | some pos => .ok pos
  | none =>
    match getNeighborBodies E L node JSValue.undefined with
    | .error e => .error e
    | .ok neighbors =>
      match simulatorAt L layer with
      | none => .error .TypeError
      | some (i, sim) =>
        .ok (E.getBestNewBodyPosition i (sim.bodies.map L.bodies) (neighbors.map L.bodies))

/-- The function `initBody(nodeId, layer)`; `layer` is `none` when the caller passes
one argument.  When the node already has a body the variable `node` stays undefined
and `node.position` is a TypeError. -/
def initBody (E : Engine) (nodeId : Nat) (layer : Option Int) : Run Unit := fun L =>
  match L.nodeBodies nodeId with
  | some _ => .throw .TypeError L
  | none =>
    match L.graph.getNode nodeId with
    | none => .throw (.Error "initBody() was called with unknown node id") L
    | some node =>
      match newBodyPosition E L node layer with
      | .error e => .throw e L
      | .ok pos =>
        match simulatorAt L layer with
        | none => .throw .TypeError L
        | some (i, sim) =>
          (do
            let body ← addBodyAt i sim pos
            modifyState (fun L1 =>
              { L1 with nodeBodies := Function.update L1.nodeBodies nodeId (some body) })
            updateBodyMass nodeId
            if isNodeOriginallyPinned node then
              modifyState (fun L1 =>
                { L1 with
                  bodies := Function.update L1.bodies body
                    { L1.bodies body with isPinned := true } })) L

/-- The function `getBody(nodeId)`. -/
def getBody (L : Layout) (nodeId : Nat) : Option Body :=
  (L.nodeBodies nodeId).map L.bodies

/-- The function `initLink(link)`. -/
def initLink (E : Engine) (link : Link) : Run Unit := do
  updateBodyMass link.fromId
  updateBodyMass link.toId
  let L ← getState
  let layer ← liftExcept (fun L => layerId (L.graph.getNode link.toId))
  let layerindex ← liftExcept (fun L => getLayer L.graph link.toId)
  let same ← liftExcept (fun L =>
    checkLinkLayer E.toNumber (L.graph.getNode link.fromId) (L.graph.getNode link.toId)
      layer)
  if same then
    match L.nodeBodies link.fromId, L.nodeBodies link.toId, simulatorAt L (some layerindex) with
    | some fromBody, some toBody, some (i, sim) =>
      let spring ← addSpring i sim fromBody toBody link.length
      modifyState (fun L1 =>
        { L1 with springs := Function.update L1.springs link.id (some spring) })
    | _, _, _ => throwJS .TypeError

/-- The loop `graph.forEachNode(...)` of `initLayers`. -/
def initNodes (E : Engine) : List Node → Run Unit
  | [] => pure ()
  | node :: rest => do
    let layer ← liftExcept (fun L => getLayer L.graph node.id)
    initBody E node.id (some layer)
    initNodes E rest

/-- The loop `graph.forEachLink(initLink)` of `initLayers`. -/
def initLinks (E : Engine) : List Link → Run Unit
  | [] => pure ()
  | link :: rest => do
    initLink E link
    initLinks E rest

/-- The function `initLayers()`. -/
def initLayers (E : Engine) : Run Unit := do
  let L ← getState
  initNodes E L.graph.nodes
  initLinks E L.graph.links

/-! ## The public methods -/

/-- The simulator method `step()` of the simulator with index `i`: it moves the
simulator's bodies and reports whether the simulator is stable. -/
def simulatorStep (E : Engine) (i : Nat) : Run Bool := fun L =>
  match L.physicsSimulators[i]? with
  | none => .throw .TypeError L
  | some sim =>
    let snapshot := sim.bodies.map L.bodies
    .ok (E.stepResult i sim.steps) { L with
      bodies := sim.bodies.foldl
        (fun store b =>
          Function.update store b
            { store b with pos := E.integrate i sim.steps snapshot (store b) })
        L.bodies
      physicsSimulators := L.physicsSimulators.set i { sim with steps := sim.steps + 1 }
      calls := L.calls ++ [SimCall.step i] }

/-- The first loop of `step`: the results of the simulators' steps are pushed on
`stable`. -/
def stepLoop (E : Engine) : List Nat → List Bool → Run (List Bool)
  | [], stable => pure stable
  | i :: rest, stable => do
    let r ← simulatorStep E i
    stepLoop E rest (stable ++ [r])

/-- The second loop of `step`: false at the first falsy entry of `stable`. -/
def allStable : List Bool → Bool
  | [] => true
  | s :: rest => if !s then false else allStable rest

/-- The method `step()`. -/
def step (E : Engine) : Run Bool := do
  let L ← getState
  let stable ← stepLoop E (List.range L.physicsSimulators.length) []
  pure (allStable stable)

/-- The function `getInitializedBody(nodeId)`; the result is `none` when
`nodeBodies[nodeId]` is still undefined after `initBody`. -/
def getInitializedBody (E : Engine) (nodeId : Nat) : Run (Option Nat) := do
  let L ← getState
  match L.nodeBodies nodeId with
  | some body => pure (some body)
  | none => do
    initBody E nodeId none
    let L1 ← getState
    pure (L1.nodeBodies nodeId)

/-- The method `getNodePosition(nodeId)`: it writes `z` into the body's position and
returns that position. -/
def getNodePosition (E : Engine) (nodeId : Nat) : Run Vector3d := do
  let layer ← liftExcept (fun L => getLayer L.graph nodeId)
  let body ← getInitializedBody E nodeId
  match body with
  | none => throwJS .TypeError
  | some b => do
    modifyState (fun L =>
      { L with
        bodies := Function.update L.bodies b
          { L.bodies b with
            pos := { (L.bodies b).pos with z := (layer : ℚ) * L.interLayerDistance } } })
    let L ← getState
    pure (L.bodies b).pos

/-- The method `setInterLayerDistance(dist)`. -/
def setInterLayerDistance (dist : ℚ) : Run Unit :=
  modifyState (fun L => { L with interLayerDistance := dist })

/-- The object `{from, to}` returned by `getLinkPosition`. -/
structure LinkPosition where
  fromPos : Vector3d
  toPos : Vector3d
  deriving DecidableEq, Repr

/-- The method `getLinkPosition(linkId)`; `none` is `undefined`. -/
def getLinkPosition (L : Layout) (linkId : Nat) : Option LinkPosition :=
  match L.springs linkId with
  | some spring =>
    some { fromPos := (L.bodies spring.fromBody).pos, toPos := (L.bodies spring.toBody).pos }
  | none => none

/-- The call `Math.max.apply(Math, xs)`; `⊥` is `-Infinity`. -/
def mathMax (xs : List ℚ) : WithBot ℚ :=
  List.foldl (fun (m : WithBot ℚ) (x : ℚ) => max m (x : WithBot ℚ)) ⊥ xs

/-- The first loop of `getGraphRect`: the boxes of the simulators from index `i` on. -/
def getBoxes (E : Engine) (L : Layout) : Nat → List Simulator → List BBox
  | _, [] => []
  | i, sim :: rest => E.getBBox i (sim.bodies.map L.bodies) :: getBoxes E L (i + 1) rest

/-- The object returned by `getGraphRect`. -/
structure GraphRect where
  x1 : WithBot ℚ
  y1 : WithBot ℚ
  x2 : WithBot ℚ
  y2 : WithBot ℚ
  z1 : ℚ
  z2 : ℚ

/-- The method `getGraphRect()`. -/
def getGraphRect (E : Engine) (L : Layout) : GraphRect :=
  let boxes := getBoxes E L 0 L.physicsSimulators
  { x1 := mathMax (boxes.map BBox.x1)
    y1 := mathMax (boxes.map BBox.y1)
    x2 := mathMax (boxes.map BBox.x2)
    y2 := mathMax (boxes.map BBox.y2)
    z1 := 0
    z2 := (L.graph.layers.length : ℚ) * L.interLayerDistance + 15 }

/-- The property `physicsSimulators[i][key]`: the method `step` under the key `step`,
and what the engine says under any other key. -/
def simulatorMember (E : Engine) (key : String) : Member :=
  if key = "step" then Member.step else E.member key

/-- The statement `if (physicsSimulators[i][key]) physicsSimulators[i][key](value)`.
The guard tests that the property is truthy, and the call is made whatever the
property is: a setter records the setting, the method `step` makes a step, a value
that is no function is a TypeError, and another method returns or throws. -/
def invokeMember (E : Engine) (key : String) (value : ℚ) (i : Nat) : Run Unit := fun L =>
  match L.physicsSimulators[i]? with
  | none => .throw .TypeError L
  | some sim =>
    match simulatorMember E key with
    | .absent => .ok () L
    | .value => .throw .TypeError L
    | .setter =>
      .ok () { L with
        physicsSimulators :=
          L.physicsSimulators.set i { sim with settings := sim.settings ++ [(key, value)] }
        calls := L.calls ++ [SimCall.invoke i key value] }
    | .step =>
      match simulatorStep E i L with
      | .ok _ L1 => .ok () L1
      | .throw e L1 => .throw e L1
    | .method none => .ok () { L with calls := L.calls ++ [SimCall.invoke i key value] }
    | .method (some e) =>
      .throw e { L with calls := L.calls ++ [SimCall.invoke i key value] }

/-- The inner loop of `updatePhysics` over the simulators, for one key. -/
def invokeLoop (E : Engine) (key : String) (value : ℚ) : List Nat → Run Unit
  | [] => pure ()
  | i :: rest => do
    invokeMember E key value i
    invokeLoop E key value rest

/-- The outer loop of `updatePhysics` over the own keys of `settings`. -/
def settingsLoop (E : Engine) : List (String × ℚ) → Run Unit
  | [] => pure ()
  | (key, value) :: rest => do
    let L ← getState
    invokeLoop E key value (List.range L.physicsSimulators.length)
    settingsLoop E rest

/-- The simulator method `fire('stable', isStable)` of the simulator with index `i`. -/
def simulatorFire (i : Nat) (isStable : Bool) : Run Unit := fun L =>
  match L.physicsSimulators[i]? with
  | none => .throw .TypeError L
  | some _ => .ok () { L with calls := L.calls ++ [SimCall.fire i isStable] }

/-- The last loop of `updatePhysics`. -/
def fireStepLoop (E : Engine) : List Nat → Run Unit
  | [] => pure ()
  | i :: rest => do
    simulatorFire i false
    let _ ← simulatorStep E i
    fireStepLoop E rest

/-- The method `updatePhysics(settings)`; `settings` lists the own enumerable keys of
the argument with their values. -/
def updatePhysics (E : Engine) (settings : List (String × ℚ)) : Run Unit := do
  settingsLoop E settings
  let L ← getState
  fireStepLoop E (List.range L.physicsSimulators.length)

/-! ## Graph changes -/

/-- The field `changeType` of a change record. -/
inductive ChangeType where
  | add
  | remove
  | update
  deriving DecidableEq, Repr

/-- A change record delivered with the graph's 'changed' event. -/
structure Change where
  changeType : ChangeType
  node : Option Node
  link : Option Link
  deriving DecidableEq, Repr

/-- The function `releaseNode(node)`.  The identifier `physicsSimulator` is declared
nowhere in the module, so evaluating it is a ReferenceError. -/
def releaseNode (node : Node) : Run Unit := do
  let L ← getState
  match L.nodeBodies node.id with
  | some _ => do
    modifyState (fun L1 => { L1 with nodeBodies := Function.update L1.nodeBodies node.id none })
    throwJS .ReferenceError
  | none => pure ()

/-- The function `releaseLink(link)`; it ends in the same undeclared identifier. -/
def releaseLink (link : Link) : Run Unit := do
  let L ← getState
  match L.springs link.id with
  | some _ => do
    match L.graph.getNode link.fromId with
    | some n => updateBodyMass n.id
    | none => pure ()
    match L.graph.getNode link.toId with
    | some n => updateBodyMass n.id
    | none => pure ()
    modifyState (fun L1 => { L1 with springs := Function.update L1.springs link.id none })
    throwJS .ReferenceError
  | none => pure ()

/-- The body of the loop of `onGraphChanged` for one change record. -/
def applyChange (E : Engine) (change : Change) : Run Unit :=
  match change.changeType with
  | .add => do
    match change.node with
    | some node => initBody E node.id none
    | none => pure ()
    match change.link with
    | some link => initLink E link
    | none => pure ()
  | .remove => do
    match change.node with
    | some node => releaseNode node
    | none => pure ()
    match change.link with
    | some link => releaseLink link
    | none => pure ()
  | .update => pure ()

/-- The listener `onGraphChanged(changes)`. -/
def onGraphChanged (E : Engine) : List Change → Run Unit
  | [] => pure ()
  | change :: rest => do
    applyChange E change
    onGraphChanged E rest

/-! ## Construction -/

/-- The module-level object `Options`, shared by every layout of the process. -/
structure OptionsObject where
  interLayerDistance : ℚ
  others : String → Option ℚ

/-- The value of `Options` when the module is loaded. -/
def initialOptions : OptionsObject :=
  { interLayerDistance := 100, others := fun _ => none }

/-- The assignment `Options[key] = value`. -/
def OptionsObject.assign (Options : OptionsObject) (key : String) (value : ℚ) :
    OptionsObject :=
  if key = "interLayerDistance" then { Options with interLayerDistance := value }
  else { Options with others := Function.update Options.others key (some value) }

/-- The loop of `createLayout` over the own keys of `options`. -/
def mergeOptions (Options : OptionsObject) : List (String × ℚ) → OptionsObject
  | [] => Options
  | (key, value) :: rest => mergeOptions (Options.assign key value) rest

/-- The call `createSimulator(physicsSettings)`: a simulator with nothing in it. -/
def createSimulator : Simulator :=
  { bodies := [], springs := [], settings := [], steps := 0 }

/-- The state of the closure when `initLayers()` is called. -/
def emptyLayout (graph : Graph) (interLayerDistance : ℚ) : Layout :=
  { graph := graph
    interLayerDistance := interLayerDistance
    physicsSimulators := graph.layers.map (fun _ => createSimulator)
    bodies := fun _ => { pos := { x := 0, y := 0, z := 0 }, mass := 1, isPinned := false }
    nextBody := 0
    nodeBodies := fun _ => none
    springs := fun _ => none
    calls := [] }

/-- The block `if (options) { for (var key in options) ... }` of `createLayout`: the
value of `Options` after it; `options` is `none` when the argument is falsy. -/
def updateOptions (Options : OptionsObject) (options : Option (List (String × ℚ))) :
    OptionsObject :=
  match options with
  | some o => mergeOptions Options o
  | none => Options

/-- The function `createLayout(graph, physicsSettings, options)`, run when the module
object `Options` has the value `Options`: it returns the new value of `Options` and
the layout, or the exception that ended the construction.  `graph` and `options` are
`none` when the argument is falsy; `options` lists its own keys with their values. -/
def createLayout (E : Engine) (Options : OptionsObject) (graph : Option Graph)
    (options : Option (List (String × ℚ))) : OptionsObject × Except JSError Layout :=
  match graph with
  | none => (Options, .error (.Error "Graph structure cannot be undefined"))
  | some g =>
    match initLayers E (emptyLayout g (updateOptions Options options).interLayerDistance) with
    | .ok _ L => (updateOptions Options options, .ok L)
    | .throw e _ => (updateOptions Options options, .error e)

/-! ## Vocabulary of the statements -/

/-- Whether `key` names a setter method of the simulators. -/
def isSetter (E : Engine) (key : String) : Bool :=
  decide (simulatorMember E key = Member.setter)

/-- The setter calls that `updatePhysics` makes for the keys of `settings`. -/
def setterCalls (E : Engine) (n : Nat) (settings : List (String × ℚ)) : List SimCall :=
  (settings.filter (fun kv => isSetter E kv.1)).flatMap
    (fun kv => (List.range n).map (fun i => SimCall.invoke i kv.1 kv.2))

/-- The value that the own keys of `options` give for `interLayerDistance`, if any
(the last one, should the list name the key twice). -/
def requestedDistance : List (String × ℚ) → Option ℚ
  | [] => none
  | (key, value) :: rest =>
    match requestedDistance rest with
    | some v => some v
    | none => if key = "interLayerDistance" then some value else none

/-- The inter-layer distance that a construction with the argument `options` uses and
leaves in `Options`: the one its options give, or else the one that `Options` held. -/
def distanceAfter (Options : OptionsObject) (options : Option (List (String × ℚ))) : ℚ :=
  match options with
  | none => Options.interLayerDistance
  | some o =>
    match requestedDistance o with
    | some v => v
    | none => Options.interLayerDistance

/-- What the body registry of a layout over graph `g` satisfies. -/
structure Consistent (g : Graph) (L : Layout) : Prop where
  graph_eq : L.graph = g
  sims_length : L.physicsSimulators.length = g.layers.length
  body_lt : ∀ id b, L.nodeBodies id = some b → b < L.nextBody
  body_inj : ∀ id1 id2 b, L.nodeBodies id1 = some b → L.nodeBodies id2 = some b → id1 = id2
  body_layer : ∀ id b, L.nodeBodies id = some b →
    ∃ node lid, g.getNode id = some node ∧ node.layer = some lid ∧ lid ∈ g.layers
  body_mass : ∀ id b, L.nodeBodies id = some b → (L.bodies b).mass = nodeMass g id

/-- A call a client makes between construction and `getNodePosition`. -/
inductive Op where
  | step
  | setInterLayerDistance (dist : ℚ)
  deriving DecidableEq, Repr

/-- The calls of `ops`, made one after the other. -/
def runOps (E : Engine) : List Op → Run Unit
  | [] => pure ()
  | Op.step :: rest => do
    let _ ← step E
    runOps E rest
  | Op.setInterLayerDistance dist :: rest => do
    setInterLayerDistance dist
    runOps E rest

/-- The argument of the most recent `setInterLayerDistance` among `ops`, or `d` when
there is none. -/
def currentDistance (d : ℚ) : List Op → ℚ
  | [] => d
  | Op.step :: rest => currentDistance d rest
  | Op.setInterLayerDistance dist :: rest => currentDistance dist rest

/-- The value `m` is the greatest of the numbers `xs`. -/
def IsMaxOf (m : WithBot ℚ) (xs : List ℚ) : Prop :=
  ∃ q ∈ xs, m = (q : WithBot ℚ) ∧ ∀ x ∈ xs, x ≤ q

/-- Whether `createLayout` returns a layout. -/
def constructionSucceeds (E : Engine) (Options : OptionsObject) (graph : Graph)
    (options : Option (List (String × ℚ))) : Bool :=
  match (createLayout E Options (some graph) options).2 with
  | .ok _ => true
  | .error _ => false

/-- The layout that `createLayout` returns (the empty closure state when it throws). -/
def builtLayout (E : Engine) (Options : OptionsObject) (graph : Graph)
    (options : Option (List (String × ℚ))) : Layout :=
  match (createLayout E Options (some graph) options).2 with
  | .ok L => L
  | .error _ => emptyLayout graph 0

/-- The number of springs that the simulators hold. -/
def springTotal (L : Layout) : Nat :=
  (L.physicsSimulators.map (fun s => s.springs.length)).sum

/-- Whether the two endpoints of a link resolve to the same layer index. -/
def sameLayer (g : Graph) (link : Link) : Bool :=
  match getLayer g link.fromId, getLayer g link.toId with
  | .ok i, .ok j => decide (i = j)
  | _, _ => false

/-! ## Example inputs -/

/-- The number that `ToNumber` gives for a string of decimal digits; the strings of the
examples that meet a number are of this kind. -/
def digitsToNumber (s : String) : Option ℚ :=
  if s.data ≠ [] ∧ s.data.all Char.isDigit = true then
    some ((s.data.foldl (fun n c => 10 * n + (c.toNat - 48)) 0 : Nat) : ℚ)
  else none

/-- An engine: `springLength` is the one setter and `bodies` is an array, a new body is
placed by the number of its neighbours, a step moves every body one unit along x, only
the simulator of layer 0 reports stable, and the box of a simulator depends on its
layer and body count. -/
def exampleEngine : Engine :=
  { member := fun key =>
      if key = "springLength" then Member.setter
      else if key = "bodies" then Member.value
      else Member.absent
    toNumber := digitsToNumber
    getBestNewBodyPosition := fun _ _ neighbors => ⟨neighbors.length, 0, 0⟩
    integrate := fun _ _ _ body => ⟨body.pos.x + 1, body.pos.y, body.pos.z⟩
    stepResult := fun layer _ => layer == 0
    getBBox := fun layer bodies => ⟨-(layer : ℚ), -1, bodies.length, 3 * layer⟩ }

/-- The link between the nodes 1 and 2 of layer `top`. -/
def linkAB : Link := { id := 7, fromId := 1, toId := 2, length := none }

/-- A link between node 1 of layer `top` and node 3 of layer `bottom`. -/
def linkAC : Link := { id := 8, fromId := 1, toId := 3, length := none }

/-- Two layers; nodes 1 and 2 in `top` with a link, node 3 alone in `bottom`. -/
def scenarioGraph : Graph :=
  { layers := [JSValue.string "top", JSValue.string "bottom"]
    nodes :=
      [ { id := 1, layer := some (JSValue.string "top"), position := none, links := some [linkAB],
          isPinned := false },
        { id := 2, layer := some (JSValue.string "top"), position := none, links := some [linkAB],
          isPinned := false },
        { id := 3, layer := some (JSValue.string "bottom"), position := none, links := none,
          isPinned := false } ]
    links := [linkAB] }

/-- The node 3 of `crossGraph`. -/
def nodeC : Node :=
  { id := 3, layer := some (JSValue.string "bottom"), position := none, links := some [linkAC],
    isPinned := false }

/-- The graph `scenarioGraph` with the link `linkAC` between the two layers added. -/
def crossGraph : Graph :=
  { layers := [JSValue.string "top", JSValue.string "bottom"]
    nodes :=
      [ { id := 1, layer := some (JSValue.string "top"), position := none, links := some [linkAB, linkAC],
          isPinned := false },
        { id := 2, layer := some (JSValue.string "top"), position := none, links := some [linkAB],
          isPinned := false },
        nodeC ]
    links := [linkAB, linkAC] }

/-- The layout constructed on `crossGraph` without options in a fresh process. -/
def crossLayout : Layout := builtLayout exampleEngine initialOptions crossGraph none

/-- The layout constructed on `scenarioGraph` without options in a fresh process. -/
def scenarioLayout : Layout := builtLayout exampleEngine initialOptions scenarioGraph none

/-- A new node 4 of layer `top`, with the link to node 2 that is added after it. -/
def nodeD : Node :=
  { id := 4, layer := some (JSValue.string "top"), position := none,
    links := some [{ id := 9, fromId := 2, toId := 4, length := none }], isPinned := false }

/-- The link between the existing node 2 and the new node 4, both of layer `top`. -/
def linkBD : Link := { id := 9, fromId := 2, toId := 4, length := none }

/-- The graph `scenarioGraph` after `addNode(4)` and `addLink(2, 4)`. -/
def grownGraph : Graph :=
  { layers := [JSValue.string "top", JSValue.string "bottom"]
    nodes :=
      [ { id := 1, layer := some (JSValue.string "top"), position := none, links := some [linkAB],
          isPinned := false },
        { id := 2, layer := some (JSValue.string "top"), position := none, links := some [linkAB, linkBD],
          isPinned := false },
        { id := 3, layer := some (JSValue.string "bottom"), position := none, links := none,
          isPinned := false },
        nodeD ]
    links := [linkAB, linkBD] }

/-- The change batch the graph delivers after `addNode(4)` and `addLink(2, 4)`. -/
def growBatch : List Change :=
  [ { changeType := ChangeType.add, node := some nodeD, link := none },
    { changeType := ChangeType.add, node := none, link := some linkBD } ]

/-- The node 3 of `scenarioGraph`, which has no links. -/
def loneNode : Node :=
  { id := 3, layer := some (JSValue.string "bottom"), position := none, links := none, isPinned := false }

/-- The graph `scenarioGraph` after `removeNode(3)`. -/
def shrunkGraph : Graph :=
  { layers := [JSValue.string "top", JSValue.string "bottom"]
    nodes :=
      [ { id := 1, layer := some (JSValue.string "top"), position := none, links := some [linkAB],
          isPinned := false },
        { id := 2, layer := some (JSValue.string "top"), position := none, links := some [linkAB],
          isPinned := false } ]
    links := [linkAB] }

/-- The change batch the graph delivers after `removeNode(3)`. -/
def shrinkBatch : List Change :=
  [ { changeType := ChangeType.remove, node := some loneNode, link := none } ]

/-- A graph whose node 1 names a layer that `graph.layers` does not list. -/
def strayGraph : Graph :=
  { layers := [JSValue.string "top"]
    nodes :=
      [ { id := 1, layer := some (JSValue.string "cellar"), position := none, links := none,
          isPinned := false } ]
    links := [] }

/-- The value of `Options` after a layout was constructed with the option
`interLayerDistance: 50`. -/
def usedOptions : OptionsObject :=
  (createLayout exampleEngine initialOptions (some scenarioGraph)
    (some [("interLayerDistance", 50)])).1

/-- A layout constructed without options after that one, in the same process. -/
def laterLayout : Layout := builtLayout exampleEngine usedOptions scenarioGraph none

/-- A graph with the two layers `'1'` and `1`: node 1 is of the first, node 2 of the
second, and link 7 joins them. -/
def mixedGraph : Graph :=
  { layers := [JSValue.string "1", JSValue.number 1]
    nodes :=
      [ { id := 1, layer := some (JSValue.string "1"), position := none,
          links := some [linkAB], isPinned := false },
        { id := 2, layer := some (JSValue.number 1), position := none,
          links := some [linkAB], isPinned := false } ]
    links := [linkAB] }

/-- The layout constructed on `mixedGraph`. -/
def mixedLayout : Layout := builtLayout exampleEngine initialOptions mixedGraph none

/-- A link between node 1 of layer `top` and node 3 of layer `bottom` that has the id
of `linkAB`. -/
def linkAC7 : Link := { id := 7, fromId := 1, toId := 3, length := none }

/-- The graph `crossGraph` with `linkAC7` in the place of `linkAC`: two links share the
id 7. -/
def sharedIdGraph : Graph :=
  { layers := [JSValue.string "top", JSValue.string "bottom"]
    nodes :=
      [ { id := 1, layer := some (JSValue.string "top"), position := none,
          links := some [linkAB, linkAC7], isPinned := false },
        { id := 2, layer := some (JSValue.string "top"), position := none,
          links := some [linkAB], isPinned := false },
        { id := 3, layer := some (JSValue.string "bottom"), position := none,
          links := some [linkAC7], isPinned := false } ]
    links := [linkAB, linkAC7] }

/-- The layout constructed on `sharedIdGraph`. -/
def sharedIdLayout : Layout := builtLayout exampleEngine initialOptions sharedIdGraph none

/-! ## Reasoning about computations -/

@[simp] theorem pure_apply {α : Type} (a : α) (L : Layout) :
    (pure a : Run α) L = Outcome.ok a L := rfl

@[simp] theorem bind_apply {α β : Type} (m : Run α) (f : α → Run β) (L : Layout) :
    (m >>= f) L = match m L with
      | .ok a L1 => f a L1
      | .throw e L1 => .throw e L1 := rfl

@[simp] theorem getState_apply (L : Layout) : getState L = Outcome.ok L L := rfl

@[simp] theorem modifyState_apply (f : Layout → Layout) (L : Layout) :
    modifyState f L = Outcome.ok () (f L) := rfl

@[simp] theorem throwJS_apply {α : Type} (e : JSError) (L : Layout) :
    (throwJS e : Run α) L = Outcome.throw e L := rfl

@[simp] theorem liftExcept_apply {α : Type} (f : Layout → Except JSError α) (L : Layout) :
    liftExcept f L = match f L with
      | .ok a => Outcome.ok a L
      | .error e => Outcome.throw e L := rfl

/-- What one simulator step leaves unchanged and what it changes. -/
theorem simulatorStep_spec (E : Engine) (i : Nat) (L : Layout) (sim : Simulator)
    (h : L.physicsSimulators[i]? = some sim) :
    ∃ L1, simulatorStep E i L = Outcome.ok (E.stepResult i sim.steps) L1 ∧
      L1.calls = L.calls ++ [SimCall.step i] ∧
      L1.physicsSimulators = L.physicsSimulators.set i { sim with steps := sim.steps + 1 } ∧
      L1.graph = L.graph ∧ L1.interLayerDistance = L.interLayerDistance ∧
      L1.nodeBodies = L.nodeBodies ∧ L1.springs = L.springs ∧ L1.nextBody = L.nextBody := by
  simp [simulatorStep, h]

/-- The steps of the simulators listed in `is`, which are distinct and exist. -/
theorem stepLoop_spec (E : Engine) (is : List Nat) :
    ∀ (stable : List Bool) (L : Layout), is.Nodup →
      (∀ i ∈ is, i < L.physicsSimulators.length) →
      ∃ L1, stepLoop E is stable L =
          Outcome.ok (stable ++ is.map (fun i =>
            E.stepResult i ((L.physicsSimulators[i]?.map Simulator.steps).getD 0))) L1 ∧
        L1.calls = L.calls ++ is.map SimCall.step ∧
        L1.physicsSimulators.length = L.physicsSimulators.length ∧
        (∀ j, j ∉ is → L1.physicsSimulators[j]? = L.physicsSimulators[j]?) ∧
        (∀ j ∈ is, L1.physicsSimulators[j]? =
          L.physicsSimulators[j]?.map (fun s => { s with steps := s.steps + 1 })) ∧
        L1.graph = L.graph ∧ L1.interLayerDistance = L.interLayerDistance ∧
        L1.nodeBodies = L.nodeBodies ∧ L1.springs = L.springs ∧ L1.nextBody = L.nextBody := by
  induction is with
  | nil => intro stable L _ _; simp [stepLoop]
  | cons i rest ih =>
    intro stable L hnd hlt
    have hi : i < L.physicsSimulators.length := hlt i (List.mem_cons_self _ _)
    obtain ⟨sim, hsim⟩ : ∃ sim, L.physicsSimulators[i]? = some sim :=
      ⟨L.physicsSimulators[i], List.getElem?_eq_getElem hi⟩
    obtain ⟨L1, h1, hc1, hs1, hg1, hd1, hn1, hsp1, hnb1⟩ := simulatorStep_spec E i L sim hsim
    have hnd' := (List.nodup_cons.mp hnd)
    have hlt1 : ∀ j ∈ rest, j < L1.physicsSimulators.length := by
      intro j hj
      rw [hs1, List.length_set]
      exact hlt j (List.mem_cons_of_mem _ hj)
    obtain ⟨L2, h2, hc2, hl2, hout2, hin2, hg2, hd2, hn2, hsp2, hnb2⟩ :=
      ih (stable ++ [E.stepResult i sim.steps]) L1 hnd'.2 hlt1
    have hrest : ∀ j ∈ rest, L1.physicsSimulators[j]? = L.physicsSimulators[j]? := by
      intro j hj
      have : i ≠ j := fun h => hnd'.1 (h ▸ hj)
      rw [hs1, List.getElem?_set_ne this]
    refine ⟨L2, ?_, ?_, ?_, ?_, ?_, ?_, ?_, ?_, ?_, ?_⟩
    · simp only [stepLoop, bind_apply, h1, h2, List.map_cons, hsim, Option.map_some',
        Option.getD_some, List.append_assoc, List.singleton_append]
      congr 2
      simp only [List.cons.injEq, true_and]
      apply List.map_congr_left
      intro j hj
      rw [hrest j hj]
    · rw [hc2, hc1]; simp
    · rw [hl2, hs1, List.length_set]
    · intro j hj
      have hji : j ≠ i := fun h => hj (h ▸ List.mem_cons_self _ _)
      have hjr : j ∉ rest := fun h => hj (List.mem_cons_of_mem _ h)
      rw [hout2 j hjr, hs1, List.getElem?_set_ne (Ne.symm hji)]
    · intro j hj
      rcases List.mem_cons.mp hj with rfl | hj
      · rw [hout2 j hnd'.1, hs1, List.getElem?_set_self hi, hsim]
        rfl
      · rw [hin2 j hj, hrest j hj]
    · rw [hg2, hg1]
    · rw [hd2, hd1]
    · rw [hn2, hn1]
    · rw [hsp2, hsp1]
    · rw [hnb2, hnb1]

theorem allStable_eq_all (stable : List Bool) : allStable stable = stable.all id := by
  induction stable with
  | nil => rfl
  | cons s rest ih => cases s <;> simp [allStable, ih]

/-- C1: `step()` returns normally for every layout and every engine; it calls `step()`
on every per-layer simulator exactly once, in layer order and without stopping at an
unstable one (the calls it adds to the log are `step 0, step 1, ...`, and every
simulator's step count grows by one), and it returns true if and only if every
simulator's step returned true, so that one unstable layer makes the result false. -/
theorem step_steps_every_simulator_once (E : Engine) (L : Layout) :
    ∃ r L1, step E L = Outcome.ok r L1 ∧
      L1.calls = L.calls ++ (List.range L.physicsSimulators.length).map SimCall.step ∧
      L1.physicsSimulators.length = L.physicsSimulators.length ∧
      (∀ (i : Nat) (sim : Simulator), L.physicsSimulators[i]? = some sim →
        L1.physicsSimulators[i]? = some { sim with steps := sim.steps + 1 }) ∧
      (r = true ↔
        ∀ i sim, L.physicsSimulators[i]? = some sim → E.stepResult i sim.steps = true) := by
  obtain ⟨L1, h, hc, hl, _, hin, _⟩ :=
    stepLoop_spec E (List.range L.physicsSimulators.length) [] L (List.nodup_range _)
      (fun i hi => List.mem_range.mp hi)
  refine ⟨allStable ([] ++ (List.range L.physicsSimulators.length).map (fun i =>
    E.stepResult i ((L.physicsSimulators[i]?.map Simulator.steps).getD 0))), L1, ?_, hc, hl, ?_, ?_⟩
  · simp only [step, bind_apply, getState_apply, h, pure_apply]
  · intro i sim hsim
    have hi : i < L.physicsSimulators.length := by
      by_contra hge
      rw [List.getElem?_eq_none (Nat.le_of_not_lt hge)] at hsim
      exact Option.noConfusion hsim
    rw [hin i (List.mem_range.mpr hi), hsim]
    rfl
  · rw [allStable_eq_all]
    simp only [List.nil_append, List.all_eq_true, List.mem_map, List.mem_range, id_eq,
      forall_exists_index, and_imp]
    constructor
    · intro hall i sim hsim
      have hi : i < L.physicsSimulators.length := by
        by_contra hge
        rw [List.getElem?_eq_none (Nat.le_of_not_lt hge)] at hsim
        exact Option.noConfusion hsim
      have := hall _ i hi rfl
      simpa [hsim] using this
    · intro hall b i hi hb
      subst hb
      have hsim : L.physicsSimulators[i]? = some L.physicsSimulators[i] :=
        List.getElem?_eq_getElem hi
      rw [hsim]
      exact hall i _ hsim


theorem getElem?_some_lt {α : Type} {l : List α} {i : Nat} {a : α} (h : l[i]? = some a) :
    i < l.length := by
  by_contra hge
  rw [List.getElem?_eq_none (Nat.le_of_not_lt hge)] at h
  exact Option.noConfusion h

/-- The settings recorded by the setter calls for one key on the simulators listed in
`is`. -/
theorem invokeLoop_spec (E : Engine) (key : String) (value : ℚ) (is : List Nat)
    (hk : simulatorMember E key = Member.absent ∨ simulatorMember E key = Member.setter) :
    ∀ (L : Layout), is.Nodup → (∀ i ∈ is, i < L.physicsSimulators.length) →
      ∃ L1, invokeLoop E key value is L = Outcome.ok () L1 ∧
        L1.calls = L.calls ++
          (if isSetter E key then is.map (fun i => SimCall.invoke i key value) else []) ∧
        L1.physicsSimulators.length = L.physicsSimulators.length ∧
        (∀ j, j ∉ is → L1.physicsSimulators[j]? = L.physicsSimulators[j]?) ∧
        (∀ j ∈ is, L1.physicsSimulators[j]? =
          L.physicsSimulators[j]?.map (fun s =>
            { s with settings := s.settings ++ if isSetter E key then [(key, value)] else [] })) := by
  induction is with
  | nil => intro L _ _; simp [invokeLoop]
  | cons i rest ih =>
    intro L hnd hlt
    have hi : i < L.physicsSimulators.length := hlt i (List.mem_cons_self _ _)
    have hsim : L.physicsSimulators[i]? = some L.physicsSimulators[i] :=
      List.getElem?_eq_getElem hi
    have hnd' := (List.nodup_cons.mp hnd)
    rcases hk with hk | hk
    swap
    · have hm : isSetter E key = true := by simp [isSetter, hk]
      obtain ⟨L1, h1, hc1, hs1⟩ : ∃ L1, invokeMember E key value i L = Outcome.ok () L1 ∧
          L1.calls = L.calls ++ [SimCall.invoke i key value] ∧
          L1.physicsSimulators = L.physicsSimulators.set i
            { L.physicsSimulators[i] with
              settings := L.physicsSimulators[i].settings ++ [(key, value)] } := by
        simp [invokeMember, hsim, hk]
      have hlt1 : ∀ j ∈ rest, j < L1.physicsSimulators.length := by
        intro j hj
        rw [hs1, List.length_set]
        exact hlt j (List.mem_cons_of_mem _ hj)
      obtain ⟨L2, h2, hc2, hl2, hout2, hin2⟩ := ih L1 hnd'.2 hlt1
      have hrest : ∀ j ∈ rest, L1.physicsSimulators[j]? = L.physicsSimulators[j]? := by
        intro j hj
        have : i ≠ j := fun h => hnd'.1 (h ▸ hj)
        rw [hs1, List.getElem?_set_ne this]
      refine ⟨L2, ?_, ?_, ?_, ?_, ?_⟩
      · simp only [invokeLoop, bind_apply, h1, h2]
      · rw [hc2, hc1]; simp [hm]
      · rw [hl2, hs1, List.length_set]
      · intro j hj
        have hji : j ≠ i := fun h => hj (h ▸ List.mem_cons_self _ _)
        have hjr : j ∉ rest := fun h => hj (List.mem_cons_of_mem _ h)
        rw [hout2 j hjr, hs1, List.getElem?_set_ne (Ne.symm hji)]
      · intro j hj
        rcases List.mem_cons.mp hj with rfl | hj
        · rw [hout2 j hnd'.1, hs1, List.getElem?_set_self hi, hsim]
          simp [hm]
        · rw [hin2 j hj, hrest j hj]
    · have hm : isSetter E key = false := by simp [isSetter, hk]
      have h1 : invokeMember E key value i L = Outcome.ok () L := by
        simp [invokeMember, hsim, hk]
      obtain ⟨L2, h2, hc2, hl2, hout2, hin2⟩ :=
        ih L hnd'.2 (fun j hj => hlt j (List.mem_cons_of_mem _ hj))
      refine ⟨L2, ?_, ?_, hl2, ?_, ?_⟩
      · simp only [invokeLoop, bind_apply, h1, h2]
      · rw [hc2]; simp [hm]
      · intro j hj
        exact hout2 j (fun h => hj (List.mem_cons_of_mem _ h))
      · intro j hj
        rcases List.mem_cons.mp hj with rfl | hj
        · rw [hout2 j hnd'.1, hsim]
          simp [hm]
        · exact hin2 j hj

theorem settingsLoop_spec (E : Engine) (settings : List (String × ℚ)) :
    (∀ kv ∈ settings, simulatorMember E kv.1 = Member.absent ∨
      simulatorMember E kv.1 = Member.setter) →
    ∀ (L : Layout),
      ∃ L1, settingsLoop E settings L = Outcome.ok () L1 ∧
        L1.calls = L.calls ++ setterCalls E L.physicsSimulators.length settings ∧
        L1.physicsSimulators.length = L.physicsSimulators.length ∧
        (∀ j : Nat, L1.physicsSimulators[j]? =
          L.physicsSimulators[j]?.map (fun s : Simulator =>
            { s with settings := s.settings ++ settings.filter (fun kv => isSetter E kv.1) })) := by
  induction settings with
  | nil =>
    intro _ L
    refine ⟨L, by simp [settingsLoop], by simp [setterCalls], rfl, ?_⟩
    intro j
    cases L.physicsSimulators[j]? <;> simp
  | cons kv rest ih =>
    intro hkeys L
    obtain ⟨key, value⟩ := kv
    obtain ⟨L1, h1, hc1, hl1, hout1, hin1⟩ :=
      invokeLoop_spec E key value (List.range L.physicsSimulators.length)
        (hkeys (key, value) (List.mem_cons_self _ _)) L
        (List.nodup_range _) (fun i hi => List.mem_range.mp hi)
    obtain ⟨L2, h2, hc2, hl2, hs2⟩ :=
      ih (fun kv hkv => hkeys kv (List.mem_cons_of_mem _ hkv)) L1
    refine ⟨L2, ?_, ?_, ?_, ?_⟩
    · simp only [settingsLoop, bind_apply, getState_apply, h1, h2]
    · rw [hc2, hc1, hl1]
      by_cases hm : isSetter E key = true <;> simp [setterCalls, hm, List.filter_cons]
    · rw [hl2, hl1]
    · intro j
      rw [hs2 j]
      by_cases hj : j < L.physicsSimulators.length
      · rw [hin1 j (List.mem_range.mpr hj), List.getElem?_eq_getElem hj]
        by_cases hm : isSetter E key = true <;> simp [hm, List.filter_cons]
      · rw [hout1 j (fun h => hj (List.mem_range.mp h)),
          List.getElem?_eq_none (Nat.le_of_not_lt hj)]
        rfl

theorem fireStepLoop_spec (E : Engine) (is : List Nat) :
    ∀ (L : Layout), is.Nodup → (∀ i ∈ is, i < L.physicsSimulators.length) →
      ∃ L1, fireStepLoop E is L = Outcome.ok () L1 ∧
        L1.calls = L.calls ++ is.flatMap (fun i => [SimCall.fire i false, SimCall.step i]) ∧
        L1.physicsSimulators.length = L.physicsSimulators.length ∧
        (∀ j, j ∉ is → L1.physicsSimulators[j]? = L.physicsSimulators[j]?) ∧
        (∀ j ∈ is, L1.physicsSimulators[j]? =
          L.physicsSimulators[j]?.map (fun s => { s with steps := s.steps + 1 })) := by
  induction is with
  | nil => intro L _ _; simp [fireStepLoop]
  | cons i rest ih =>
    intro L hnd hlt
    have hi : i < L.physicsSimulators.length := hlt i (List.mem_cons_self _ _)
    have hsim : L.physicsSimulators[i]? = some L.physicsSimulators[i] :=
      List.getElem?_eq_getElem hi
    have hnd' := (List.nodup_cons.mp hnd)
    have h0 : simulatorFire i false L =
        Outcome.ok () { L with calls := L.calls ++ [SimCall.fire i false] } := by
      simp [simulatorFire, hsim]
    obtain ⟨L1, h1, hc1, hs1, _⟩ :=
      simulatorStep_spec E i { L with calls := L.calls ++ [SimCall.fire i false] }
        L.physicsSimulators[i] hsim
    have hlt1 : ∀ j ∈ rest, j < L1.physicsSimulators.length := by
      intro j hj
      rw [hs1, List.length_set]
      exact hlt j (List.mem_cons_of_mem _ hj)
    obtain ⟨L2, h2, hc2, hl2, hout2, hin2⟩ := ih L1 hnd'.2 hlt1
    have hrest : ∀ j ∈ rest, L1.physicsSimulators[j]? = L.physicsSimulators[j]? := by
      intro j hj
      have : i ≠ j := fun h => hnd'.1 (h ▸ hj)
      rw [hs1, List.getElem?_set_ne this]
    refine ⟨L2, ?_, ?_, ?_, ?_, ?_⟩
    · simp only [fireStepLoop, bind_apply, h0, h1, h2]
    · rw [hc2, hc1]; simp
    · rw [hl2, hs1, List.length_set]
    · intro j hj
      have hji : j ≠ i := fun h => hj (h ▸ List.mem_cons_self _ _)
      have hjr : j ∉ rest := fun h => hj (List.mem_cons_of_mem _ h)
      rw [hout2 j hjr, hs1, List.getElem?_set_ne (Ne.symm hji)]
    · intro j hj
      rcases List.mem_cons.mp hj with rfl | hj
      · rw [hout2 j hnd'.1, hs1, List.getElem?_set_self hi, hsim]
        rfl
      · rw [hin2 j hj, hrest j hj]

/-- C7, amended: for every settings map each of whose keys names either no truthy
member of the simulators or a setter method, `updatePhysics(settings)` returns
normally; for every key of the map that names a setter it invokes that setter with
the supplied value on every per-layer simulator (in key order, and for each key in
layer order); afterwards it fires `stable = false` on every simulator and performs
exactly one `step()` on each, so that each simulator has recorded the settings and
made one step more. -/
theorem updatePhysics_invokes_setters_then_steps (E : Engine) (settings : List (String × ℚ))
    (L : Layout)
    (hkeys : ∀ kv ∈ settings, simulatorMember E kv.1 = Member.absent ∨
      simulatorMember E kv.1 = Member.setter) :
    ∃ L1, updatePhysics E settings L = Outcome.ok () L1 ∧
      L1.calls = L.calls ++ setterCalls E L.physicsSimulators.length settings ++
        (List.range L.physicsSimulators.length).flatMap
          (fun i => [SimCall.fire i false, SimCall.step i]) ∧
      (∀ (i : Nat) (sim : Simulator), L.physicsSimulators[i]? = some sim →
        L1.physicsSimulators[i]? = some
          { sim with
            settings := sim.settings ++ settings.filter (fun kv => isSetter E kv.1)
            steps := sim.steps + 1 }) ∧
      (∀ kv ∈ settings, simulatorMember E kv.1 = Member.setter →
        ∀ i < L.physicsSimulators.length, SimCall.invoke i kv.1 kv.2 ∈ L1.calls) := by
  obtain ⟨L1, h1, hc1, hl1, hs1⟩ := settingsLoop_spec E settings hkeys L
  obtain ⟨L2, h2, hc2, hl2, hout2, hin2⟩ :=
    fireStepLoop_spec E (List.range L1.physicsSimulators.length) L1
      (List.nodup_range _) (fun i hi => List.mem_range.mp hi)
  refine ⟨L2, ?_, ?_, ?_, ?_⟩
  · simp only [updatePhysics, bind_apply, h1, getState_apply, h2]
  · rw [hc2, hc1, hl1]
  · intro i sim hsim
    have hi : i < L1.physicsSimulators.length := hl1 ▸ getElem?_some_lt hsim
    rw [hin2 i (List.mem_range.mpr hi), hs1 i, hsim]
    rfl
  · intro kv hkv hm i hi
    rw [hc2, hc1]
    apply List.mem_append_left
    apply List.mem_append_right
    simp only [setterCalls, List.mem_flatMap, List.mem_filter, List.mem_map, List.mem_range]
    exact ⟨kv, ⟨hkv, by simp [isSetter, hm]⟩, i, hi, rfl⟩

/-! ## Construction keeps the registry consistent -/

theorem consistent_emptyLayout (g : Graph) (d : ℚ) : Consistent g (emptyLayout g d) where
  graph_eq := rfl
  sims_length := by simp [emptyLayout]
  body_lt := by intro id b h; simp [emptyLayout] at h
  body_inj := by intro id1 id2 b h; simp [emptyLayout] at h
  body_layer := by intro id b h; simp [emptyLayout] at h
  body_mass := by intro id b h; simp [emptyLayout] at h

theorem looseEq_refl (toNumber : String → Option ℚ) (v : JSValue) :
    looseEq toNumber v v = true := by
  cases v <;> simp [looseEq]

theorem indexOf_nonneg_iff (layers : List JSValue) (id : JSValue) :
    0 ≤ indexOf layers id ↔ id ∈ layers := by
  unfold indexOf
  split <;> simp [*]

theorem simulatorAt_some {L : Layout} {layer : Option Int} {i : Nat} {sim : Simulator}
    (h : simulatorAt L layer = some (i, sim)) :
    layer = some (i : Int) ∧ L.physicsSimulators[i]? = some sim := by
  unfold simulatorAt at h
  split at h
  · rename_i k
    cases hk : L.physicsSimulators[k]? with
    | none => simp [hk] at h
    | some s =>
      simp [hk] at h
      obtain ⟨rfl, rfl⟩ := h
      exact ⟨rfl, hk⟩
  · exact Option.noConfusion h

/-- One successful `initBody(nodeId, layer)` with the layer that `getLayer` gave. -/
theorem initBody_ok (E : Engine) (g : Graph) (L L1 : Layout) (nodeId : Nat) (layer : Int)
    (hc : Consistent g L) (hl : getLayer g nodeId = .ok layer)
    (h : initBody E nodeId (some layer) L = Outcome.ok () L1) :
    Consistent g L1 ∧ L1.interLayerDistance = L.interLayerDistance ∧
      L1.springs = L.springs ∧ L1.calls = L.calls ∧
      L.nodeBodies nodeId = none ∧
      L1.nodeBodies = Function.update L.nodeBodies nodeId (some L.nextBody) ∧
      (∀ (i : Nat) (sim : Simulator), L.physicsSimulators[i]? = some sim →
        ∃ sim1 : Simulator, L1.physicsSimulators[i]? = some sim1 ∧ sim1.springs = sim.springs) := by
  unfold initBody at h
  cases hnone : L.nodeBodies nodeId with
  | some b => simp [hnone] at h
  | none =>
  cases hnode : L.graph.getNode nodeId with
  | none => simp [hnone, hnode] at h
  | some node =>
  cases hpos : newBodyPosition E L node (some layer) with
  | error e => simp [hnone, hnode, hpos] at h
  | ok pos =>
  cases hsim : simulatorAt L (some layer) with
  | none => simp [hnone, hnode, hpos, hsim] at h
  | some isim =>
  obtain ⟨i, sim⟩ := isim
  simp only [hnone, hnode, hpos, hsim] at h
  obtain ⟨hlayer, hsimi⟩ := simulatorAt_some hsim
  have hi : i < L.physicsSimulators.length := getElem?_some_lt hsimi
  have hg := hc.graph_eq
  -- the layer of the node is one of the layers of the graph
  have hlid : ∃ lid, node.layer = some lid ∧ lid ∈ g.layers := by
    rw [hg] at hnode
    unfold getLayer layerId at hl
    rw [hnode] at hl
    cases hlay : node.layer with
    | none => simp [hlay] at hl
    | some lid =>
      simp [hlay] at hl
      refine ⟨lid, rfl, ?_⟩
      rw [← indexOf_nonneg_iff, hl]
      injection hlayer with hlayer
      rw [hlayer]
      exact Int.natCast_nonneg i
  simp only [bind_apply, addBodyAt, modifyState_apply, updateBodyMass,
    Function.update_same] at h
  have key : ∃ pinned : Bool, L1 = { L with
      bodies := Function.update L.bodies L.nextBody
        { pos := pos, mass := nodeMass L.graph nodeId, isPinned := pinned }
      nextBody := L.nextBody + 1
      physicsSimulators :=
        L.physicsSimulators.set i { sim with bodies := sim.bodies ++ [L.nextBody] }
      nodeBodies := Function.update L.nodeBodies nodeId (some L.nextBody) } := by
    by_cases hp : isNodeOriginallyPinned node = true
    · refine ⟨true, ?_⟩
      simp [hp] at h
      rw [← h]
    · refine ⟨false, ?_⟩
      simp [hp] at h
      rw [← h]
  clear h
  obtain ⟨pinned, rfl⟩ := key
  obtain ⟨lid, hlay, hmem⟩ := hlid
  refine ⟨⟨hg, ?_, ?_, ?_, ?_, ?_⟩, rfl, rfl, rfl, rfl, rfl, ?_⟩
  · simpa using hc.sims_length
  · intro id b hb
    simp only [Function.update_apply] at hb
    split at hb
    · injection hb with hb
      show b < L.nextBody + 1
      omega
    · have := hc.body_lt id b hb
      show b < L.nextBody + 1
      omega
  · intro id1 id2 b h1 h2
    simp only [Function.update_apply] at h1 h2
    split at h1 <;> split at h2
    · simp [*]
    · injection h1 with h1
      have := hc.body_lt id2 b h2; omega
    · injection h2 with h2
      have := hc.body_lt id1 b h1; omega
    · exact hc.body_inj id1 id2 b h1 h2
  · intro id b hb
    simp only [Function.update_apply] at hb
    split at hb
    · rename_i hid
      subst hid
      exact ⟨node, lid, hg ▸ hnode, hlay, hmem⟩
    · exact hc.body_layer id b hb
  · intro id b hb
    simp only [Function.update_apply] at hb
    split at hb
    · rename_i hid
      subst hid
      injection hb with hb
      subst hb
      simp [hg]
    · have hlt := hc.body_lt id b hb
      have hne : b ≠ L.nextBody := by omega
      simp only [Function.update_apply, hne, if_false]
      exact hc.body_mass id b hb
  · intro k simk hk
    by_cases hki : i = k
    · subst hki
      rw [hsimi] at hk
      injection hk with hk
      subst hk
      exact ⟨_, List.getElem?_set_self hi, rfl⟩
    · exact ⟨simk, by simp only [List.getElem?_set_ne hki, hk], rfl⟩

/-- The loop over the nodes, when it succeeds, gives every visited node a body. -/
theorem initNodes_ok (E : Engine) (g : Graph) (nodes : List Node) :
    ∀ (L L1 : Layout), Consistent g L → initNodes E nodes L = Outcome.ok () L1 →
      Consistent g L1 ∧ L1.interLayerDistance = L.interLayerDistance ∧
        L1.springs = L.springs ∧ L1.calls = L.calls ∧
        (∀ id b, L.nodeBodies id = some b → L1.nodeBodies id = some b) ∧
        (∀ node ∈ nodes, ∃ b, L1.nodeBodies node.id = some b) ∧
        (∀ (i : Nat) (sim : Simulator), L.physicsSimulators[i]? = some sim →
          ∃ sim1 : Simulator, L1.physicsSimulators[i]? = some sim1 ∧
            sim1.springs = sim.springs) := by
  induction nodes with
  | nil =>
    intro L L1 hc h
    simp only [initNodes, pure_apply, Outcome.ok.injEq, true_and] at h
    subst h
    exact ⟨hc, rfl, rfl, rfl, fun _ _ h => h, by simp, fun i sim h => ⟨sim, h, rfl⟩⟩
  | cons node rest ih =>
    intro L L1 hc h
    simp only [initNodes, bind_apply, liftExcept_apply] at h
    cases hl : getLayer L.graph node.id with
    | error e => simp [hl] at h
    | ok layer =>
      simp only [hl] at h
      cases hb : initBody E node.id (some layer) L with
      | throw e L2 => simp [hb] at h
      | ok u L2 =>
        simp only [hb] at h
        rw [hc.graph_eq] at hl
        obtain ⟨hc2, hd2, hs2, hcl2, hnone, hnb2, hsim2⟩ :=
          initBody_ok E g L L2 node.id layer hc hl hb
        obtain ⟨hc1, hd1, hs1, hcl1, hmono, hall, hsim1⟩ := ih L2 L1 hc2 h
        refine ⟨hc1, hd1.trans hd2, hs1.trans hs2, hcl1.trans hcl2, ?_, ?_, ?_⟩
        · intro id b hidb
          apply hmono
          rw [hnb2, Function.update_apply]
          split
          · rename_i hid
            rw [hid, hnone] at hidb
            exact Option.noConfusion hidb
          · exact hidb
        · intro n hn
          rcases List.mem_cons.mp hn with rfl | hn
          · exact ⟨L.nextBody, hmono _ _ (by rw [hnb2, Function.update_same])⟩
          · exact hall n hn
        · intro i sim hi
          obtain ⟨sim2, h2, e2⟩ := hsim2 i sim hi
          obtain ⟨sim1, h1, e1⟩ := hsim1 i sim2 h2
          exact ⟨sim1, h1, e1.trans e2⟩

/-- A successful `updateBodyMass` writes the mass of the node's body only. -/
theorem updateBodyMass_ok (g : Graph) (L L1 : Layout) (nodeId : Nat)
    (hc : Consistent g L) (h : updateBodyMass nodeId L = Outcome.ok () L1) :
    Consistent g L1 ∧ L1.interLayerDistance = L.interLayerDistance ∧
      L1.nodeBodies = L.nodeBodies ∧ L1.calls = L.calls ∧ L1.springs = L.springs ∧
      L1.physicsSimulators = L.physicsSimulators ∧
      ∃ b, L.nodeBodies nodeId = some b := by
  unfold updateBodyMass at h
  cases hb : L.nodeBodies nodeId with
  | none => simp [hb] at h
  | some b =>
    simp only [hb, Outcome.ok.injEq, true_and] at h
    subst h
    refine ⟨⟨hc.graph_eq, hc.sims_length, hc.body_lt, hc.body_inj, hc.body_layer, ?_⟩,
      rfl, rfl, rfl, rfl, rfl, b, rfl⟩
    intro id b1 hb1
    simp only [Function.update_apply]
    split
    · rename_i hbb
      subst hbb
      have := hc.body_inj id nodeId b1 hb1 hb
      subst this
      simp [hc.graph_eq]
    · exact hc.body_mass id b1 hb1

theorem layerId_of_body (g : Graph) (L : Layout) (hc : Consistent g L) (id b : Nat)
    (hb : L.nodeBodies id = some b) :
    ∃ lid, layerId (g.getNode id) = .ok lid ∧ lid ∈ g.layers := by
  obtain ⟨node, lid, hn, hl, hm⟩ := hc.body_layer id b hb
  exact ⟨lid, by simp [layerId, hn, hl], hm⟩

theorem indexOf_of_mem (layers : List JSValue) (id : JSValue) (h : id ∈ layers) :
    indexOf layers id = (layers.indexOf id : Int) := by
  simp [indexOf, h]

/-- A successful `initLink`: a spring exactly when `==` takes the two layer ids for
equal. -/
theorem initLink_ok (E : Engine) (g : Graph) (L L1 : Layout) (link : Link)
    (hc : Consistent g L) (h : initLink E link L = Outcome.ok () L1) :
    Consistent g L1 ∧ L1.interLayerDistance = L.interLayerDistance ∧
      L1.nodeBodies = L.nodeBodies ∧ L1.calls = L.calls ∧
      ∃ bf bt lf lt, L.nodeBodies link.fromId = some bf ∧ L.nodeBodies link.toId = some bt ∧
        layerId (g.getNode link.fromId) = .ok lf ∧ layerId (g.getNode link.toId) = .ok lt ∧
        lf ∈ g.layers ∧ lt ∈ g.layers ∧
        (looseEq E.toNumber lf lt = true →
          L1.springs = Function.update L.springs link.id (some ⟨bf, bt, link.length⟩) ∧
          ∃ sim, L.physicsSimulators[g.layers.indexOf lt]? = some sim ∧
            L1.physicsSimulators = L.physicsSimulators.set (g.layers.indexOf lt)
              { sim with springs := sim.springs ++ [⟨bf, bt, link.length⟩] }) ∧
        (looseEq E.toNumber lf lt = false →
          L1.springs = L.springs ∧ L1.physicsSimulators = L.physicsSimulators) := by
  simp only [initLink, bind_apply] at h
  cases h1 : updateBodyMass link.fromId L with
  | throw e L2 => simp [h1] at h
  | ok u1 L2 =>
  simp only [h1] at h
  obtain ⟨hc2, hd2, hn2, hcl2, hs2, hp2, bf, hbf⟩ := updateBodyMass_ok g L L2 _ hc h1
  cases h2 : updateBodyMass link.toId L2 with
  | throw e L3 => simp [h2] at h
  | ok u2 L3 =>
  simp only [h2] at h
  obtain ⟨hc3, hd3, hn3, hcl3, hs3, hp3, bt, hbt⟩ := updateBodyMass_ok g L2 L3 _ hc2 h2
  rw [hn2] at hbt
  obtain ⟨lf, hlf, hmf⟩ := layerId_of_body g L hc _ _ hbf
  obtain ⟨lt, hlt, hmt⟩ := layerId_of_body g L hc _ _ hbt
  have hg3 := hc3.graph_eq
  have hidx : getLayer g link.toId = .ok (g.layers.indexOf lt : Int) := by
    simp [getLayer, hlt, indexOf_of_mem _ _ hmt]
  have hcheck : checkLinkLayer E.toNumber (g.getNode link.fromId) (g.getNode link.toId) lt =
      .ok (looseEq E.toNumber lf lt) := by
    simp only [checkLinkLayer, hlf, hlt, looseEq_refl]
    cases looseEq E.toNumber lf lt <;> simp
  simp only [getState_apply, liftExcept_apply, hg3, hlt, hidx, hcheck] at h
  have hnb3 : L3.nodeBodies = L.nodeBodies := hn3.trans hn2
  have hps3 : L3.physicsSimulators = L.physicsSimulators := hp3.trans hp2
  by_cases hft : looseEq E.toNumber lf lt = true
  · have hk : g.layers.indexOf lt < L3.physicsSimulators.length := by
      rw [hc3.sims_length]
      exact List.indexOf_lt_length.mpr hmt
    have hsim : simulatorAt L3 (some (g.layers.indexOf lt : Int)) =
        some (g.layers.indexOf lt, L3.physicsSimulators[g.layers.indexOf lt]) := by
      show Option.map _ L3.physicsSimulators[g.layers.indexOf lt]? = _
      rw [List.getElem?_eq_getElem hk]
      rfl
    have hbf3 : L3.nodeBodies link.fromId = some bf := by rw [hnb3]; exact hbf
    have hbt3 : L3.nodeBodies link.toId = some bt := by rw [hnb3]; exact hbt
    simp only [hft, if_true, hbf3, hbt3, hsim, bind_apply, addSpring,
      modifyState_apply, Outcome.ok.injEq, true_and] at h
    subst h
    refine ⟨⟨hg3, ?_, hc3.body_lt, hc3.body_inj, hc3.body_layer, hc3.body_mass⟩,
      hd3.trans hd2, hnb3, hcl3.trans hcl2, bf, bt, lf, lt, hbf, hbt, hlf, hlt, hmf, hmt,
      ?_, fun hne => by rw [hft] at hne; exact absurd hne (by decide)⟩
    · simpa using hc3.sims_length
    · intro _
      refine ⟨by simp only [hs3, hs2], L3.physicsSimulators[g.layers.indexOf lt], ?_, ?_⟩
      · rw [← hps3]; exact List.getElem?_eq_getElem hk
      · simp only [hps3]
  · simp only [hft, Bool.false_eq_true, if_false, pure_apply, Outcome.ok.injEq,
      true_and] at h
    subst h
    exact ⟨hc3, hd3.trans hd2, hnb3, hcl3.trans hcl2, bf, bt, lf, lt, hbf, hbt, hlf, hlt,
      hmf, hmt, fun heq => absurd heq hft, fun _ => ⟨hs3.trans hs2, hps3⟩⟩

/-- The loop over the links, when it succeeds and the link ids are distinct. -/
theorem initLinks_ok (E : Engine) (g : Graph) (links : List Link) :
    ∀ (L L1 : Layout), Consistent g L → initLinks E links L = Outcome.ok () L1 →
      (links.map Link.id).Nodup →
      Consistent g L1 ∧ L1.interLayerDistance = L.interLayerDistance ∧
        L1.nodeBodies = L.nodeBodies ∧ L1.calls = L.calls ∧
        (∀ id, id ∉ links.map Link.id → L1.springs id = L.springs id) ∧
        (∀ (k : Nat) (sim : Simulator), L.physicsSimulators[k]? = some sim →
          ∃ sim1 : Simulator, L1.physicsSimulators[k]? = some sim1 ∧
            ∀ s ∈ sim.springs, s ∈ sim1.springs) ∧
        (∀ link ∈ links, ∃ bf bt lf lt,
          L.nodeBodies link.fromId = some bf ∧ L.nodeBodies link.toId = some bt ∧
          layerId (g.getNode link.fromId) = .ok lf ∧ layerId (g.getNode link.toId) = .ok lt ∧
          lf ∈ g.layers ∧ lt ∈ g.layers ∧
          (looseEq E.toNumber lf lt = true → L1.springs link.id = some ⟨bf, bt, link.length⟩ ∧
            ∃ sim1 : Simulator, L1.physicsSimulators[g.layers.indexOf lt]? = some sim1 ∧
              (⟨bf, bt, link.length⟩ : Spring) ∈ sim1.springs) ∧
          (looseEq E.toNumber lf lt = false → L1.springs link.id = L.springs link.id)) := by
  induction links with
  | nil =>
    intro L L1 hc h _
    simp only [initLinks, pure_apply, Outcome.ok.injEq, true_and] at h
    subst h
    exact ⟨hc, rfl, rfl, rfl, fun _ _ => rfl, fun k sim hk => ⟨sim, hk, fun _ hs => hs⟩,
      by simp⟩
  | cons link rest ih =>
    intro L L1 hc h hnd
    simp only [initLinks, bind_apply] at h
    cases h1 : initLink E link L with
    | throw e L2 => simp [h1] at h
    | ok u L2 =>
    simp only [h1] at h
    simp only [List.map_cons, List.nodup_cons] at hnd
    obtain ⟨hc2, hd2, hn2, hcl2, bf, bt, lf, lt, hbf, hbt, hlf, hlt, hmf, hmt, hsame, hdiff⟩ :=
      initLink_ok E g L L2 link hc h1
    obtain ⟨hc1, hd1, hn1, hcl1, hout, hmono, hall⟩ := ih L2 L1 hc2 h hnd.2
    have hsp2 : ∀ id, id ≠ link.id → L2.springs id = L.springs id := by
      intro id hid
      by_cases hft : looseEq E.toNumber lf lt = true
      · rw [(hsame hft).1, Function.update_noteq hid]
      · rw [(hdiff (Bool.eq_false_iff.mpr hft)).1]
    have hmono2 : ∀ (k : Nat) (sim : Simulator), L.physicsSimulators[k]? = some sim →
        ∃ sim2 : Simulator, L2.physicsSimulators[k]? = some sim2 ∧
          ∀ s ∈ sim.springs, s ∈ sim2.springs := by
      intro k sim hk
      by_cases hft : looseEq E.toNumber lf lt = true
      · obtain ⟨_, sim0, hsim0, hset⟩ := hsame hft
        by_cases hki : g.layers.indexOf lt = k
        · subst hki
          rw [hsim0] at hk
          injection hk with hk
          subst hk
          refine ⟨_, by rw [hset]; exact List.getElem?_set_self (getElem?_some_lt hsim0), ?_⟩
          intro s hs
          exact List.mem_append_left _ hs
        · exact ⟨sim, by rw [hset, List.getElem?_set_ne hki]; exact hk, fun _ hs => hs⟩
      · exact ⟨sim, by rw [(hdiff (Bool.eq_false_iff.mpr hft)).2]; exact hk, fun _ hs => hs⟩
    refine ⟨hc1, hd1.trans hd2, hn1.trans hn2, hcl1.trans hcl2, ?_, ?_, ?_⟩
    · intro id hid
      simp only [List.map_cons, List.mem_cons, not_or] at hid
      rw [hout id hid.2, hsp2 id hid.1]
    · intro k sim hk
      obtain ⟨sim2, hk2, hs2⟩ := hmono2 k sim hk
      obtain ⟨sim1, hk1, hs1⟩ := hmono k sim2 hk2
      exact ⟨sim1, hk1, fun s hs => hs1 s (hs2 s hs)⟩
    · intro l hl
      rcases List.mem_cons.mp hl with rfl | hl
      · refine ⟨bf, bt, lf, lt, hbf, hbt, hlf, hlt, hmf, hmt, ?_, ?_⟩
        · intro hft
          obtain ⟨hspr, sim0, hsim0, hset⟩ := hsame hft
          refine ⟨by rw [hout _ hnd.1, hspr, Function.update_same], ?_⟩
          obtain ⟨sim1, hk1, hs1⟩ := hmono (g.layers.indexOf lt) _
            (by rw [hset]; exact List.getElem?_set_self (getElem?_some_lt hsim0))
          exact ⟨sim1, hk1, hs1 _ (by simp)⟩
        · intro hft
          rw [hout _ hnd.1, (hdiff hft).1]
      · obtain ⟨bf1, bt1, lf1, lt1, hbf1, hbt1, hlf1, hlt1, hmf1, hmt1, hsame1, hdiff1⟩ :=
          hall l hl
        rw [hn2] at hbf1 hbt1
        refine ⟨bf1, bt1, lf1, lt1, hbf1, hbt1, hlf1, hlt1, hmf1, hmt1, hsame1, ?_⟩
        intro hft
        have hne : l.id ≠ link.id := by
          intro heq
          exact hnd.1 (heq ▸ List.mem_map_of_mem Link.id hl)
        rw [hdiff1 hft, hsp2 _ hne]

/-- The loop over the links keeps the body registry, whatever the link ids are. -/
theorem initLinks_consistent (E : Engine) (g : Graph) (links : List Link) :
    ∀ (L L1 : Layout), Consistent g L → initLinks E links L = Outcome.ok () L1 →
      Consistent g L1 ∧ L1.interLayerDistance = L.interLayerDistance ∧
        L1.nodeBodies = L.nodeBodies ∧ L1.calls = L.calls := by
  induction links with
  | nil =>
    intro L L1 hc h
    simp only [initLinks, pure_apply, Outcome.ok.injEq, true_and] at h
    subst h
    exact ⟨hc, rfl, rfl, rfl⟩
  | cons link rest ih =>
    intro L L1 hc h
    simp only [initLinks, bind_apply] at h
    cases h1 : initLink E link L with
    | throw e L2 => simp [h1] at h
    | ok u L2 =>
    simp only [h1] at h
    obtain ⟨hc2, hd2, hn2, hcl2, _⟩ := initLink_ok E g L L2 link hc h1
    obtain ⟨hc1, hd1, hn1, hcl1⟩ := ih L2 L1 hc2 h
    exact ⟨hc1, hd1.trans hd2, hn1.trans hn2, hcl1.trans hcl2⟩

theorem createLayout_fst (E : Engine) (Options : OptionsObject) (g : Graph)
    (options : Option (List (String × ℚ))) :
    (createLayout E Options (some g) options).1 = updateOptions Options options := by
  simp only [createLayout]
  cases initLayers E (emptyLayout g (updateOptions Options options).interLayerDistance) <;> rfl

/-- The state in which `initLayers` starts and the two loops it runs, read off a
successful construction. -/
theorem createLayout_ok (E : Engine) (Options : OptionsObject) (g : Graph)
    (options : Option (List (String × ℚ))) (L : Layout)
    (h : (createLayout E Options (some g) options).2 = .ok L) :
    ∃ L1, initNodes E g.nodes
          (emptyLayout g (updateOptions Options options).interLayerDistance) =
        Outcome.ok () L1 ∧
      initLinks E g.links L1 = Outcome.ok () L := by
  simp only [createLayout, initLayers, bind_apply, getState_apply] at h
  cases h1 : initNodes E (emptyLayout g (updateOptions Options options).interLayerDistance).graph.nodes
      (emptyLayout g (updateOptions Options options).interLayerDistance) with
  | throw e L1 => simp [h1] at h
  | ok u L1 =>
    simp only [h1] at h
    cases h2 : initLinks E
        (emptyLayout g (updateOptions Options options).interLayerDistance).graph.links L1 with
    | throw e L2 => simp [h2] at h
    | ok u2 L2 =>
      simp only [h2, Except.ok.injEq] at h
      subst h
      exact ⟨L1, h1, h2⟩

/-- After a successful construction every node of the graph has a body, and the
registry is consistent. -/
theorem createLayout_consistent (E : Engine) (Options : OptionsObject) (g : Graph)
    (options : Option (List (String × ℚ))) (L : Layout)
    (h : (createLayout E Options (some g) options).2 = .ok L) :
    Consistent g L ∧
      L.interLayerDistance = (updateOptions Options options).interLayerDistance ∧
      L.calls = [] ∧
      ∀ node ∈ g.nodes, ∃ b, L.nodeBodies node.id = some b := by
  obtain ⟨L1, h1, h2⟩ := createLayout_ok E Options g options L h
  obtain ⟨hc1, hd1, _, hcl1, _, hall, _⟩ :=
    initNodes_ok E g g.nodes _ L1 (consistent_emptyLayout g _) h1
  obtain ⟨hc, hd, hn, hcl⟩ := initLinks_consistent E g g.links L1 L hc1 h2
  refine ⟨hc, hd.trans hd1, hcl.trans hcl1, ?_⟩
  intro node hnode
  rw [hn]
  exact hall node hnode


/-! ## Positions after construction -/

/-- A step of the layout changes no registry, graph or distance. -/
theorem step_frame (E : Engine) (L : Layout) :
    ∃ r L1, step E L = Outcome.ok r L1 ∧ L1.graph = L.graph ∧
      L1.interLayerDistance = L.interLayerDistance ∧ L1.nodeBodies = L.nodeBodies := by
  obtain ⟨L1, h, _, _, _, _, hg, hd, hn, _⟩ :=
    stepLoop_spec E (List.range L.physicsSimulators.length) [] L (List.nodup_range _)
      (fun i hi => List.mem_range.mp hi)
  refine ⟨allStable ([] ++ (List.range L.physicsSimulators.length).map (fun i =>
    E.stepResult i ((L.physicsSimulators[i]?.map Simulator.steps).getD 0))), L1, ?_, hg, hd, hn⟩
  simp only [step, bind_apply, getState_apply, h, pure_apply]

/-- Any sequence of steps and distance changes returns normally and leaves the
distance of its last `setInterLayerDistance`. -/
theorem runOps_spec (E : Engine) (ops : List Op) :
    ∀ L : Layout, ∃ L1, runOps E ops L = Outcome.ok () L1 ∧ L1.graph = L.graph ∧
      L1.interLayerDistance = currentDistance L.interLayerDistance ops ∧
      L1.nodeBodies = L.nodeBodies := by
  induction ops with
  | nil => intro L; exact ⟨L, rfl, rfl, rfl, rfl⟩
  | cons op rest ih =>
    intro L
    cases op with
    | step =>
      obtain ⟨r, L1, h1, hg1, hd1, hn1⟩ := step_frame E L
      obtain ⟨L2, h2, hg2, hd2, hn2⟩ := ih L1
      refine ⟨L2, ?_, hg2.trans hg1, ?_, hn2.trans hn1⟩
      · simp only [runOps, bind_apply, h1, h2]
      · rw [hd2, hd1]; rfl
    | setInterLayerDistance dist =>
      obtain ⟨L2, h2, hg2, hd2, hn2⟩ := ih { L with interLayerDistance := dist }
      refine ⟨L2, ?_, hg2, ?_, hn2⟩
      · simp only [runOps, bind_apply, setInterLayerDistance, modifyState_apply, h2]
      · rw [hd2]; rfl

/-- The method `getNodePosition` on a node that has a body and a layer. -/
theorem getNodePosition_of_body (E : Engine) (L : Layout) (nodeId b : Nat) (layer : Int)
    (hl : getLayer L.graph nodeId = .ok layer) (hb : L.nodeBodies nodeId = some b) :
    getNodePosition E nodeId L =
      Outcome.ok { (L.bodies b).pos with z := (layer : ℚ) * L.interLayerDistance }
        { L with
          bodies := Function.update L.bodies b
            { L.bodies b with
              pos := { (L.bodies b).pos with z := (layer : ℚ) * L.interLayerDistance } } } := by
  simp [getNodePosition, getInitializedBody, hl, hb]

theorem getLayer_of_body (g : Graph) (L : Layout) (hc : Consistent g L) (id b : Nat)
    (hb : L.nodeBodies id = some b) :
    ∃ lid, layerId (g.getNode id) = .ok lid ∧ lid ∈ g.layers ∧
      getLayer g id = .ok (g.layers.indexOf lid : Int) := by
  obtain ⟨lid, hl, hm⟩ := layerId_of_body g L hc id b hb
  exact ⟨lid, hl, hm, by simp [getLayer, hl, indexOf_of_mem _ _ hm]⟩

/-- The position that `getNodePosition` returns for a node of a constructed layout
after the calls `ops`. -/
theorem getNodePosition_constructed (E : Engine) (Options : OptionsObject) (g : Graph)
    (options : Option (List (String × ℚ))) (L : Layout)
    (h : (createLayout E Options (some g) options).2 = .ok L)
    (ops : List Op) (node : Node) (hn : node ∈ g.nodes) :
    ∃ (k : Nat) (pos : Vector3d) (L1 : Layout),
      getLayer g node.id = .ok (k : Int) ∧ k < g.layers.length ∧
      (runOps E ops >>= fun _ => getNodePosition E node.id) L = Outcome.ok pos L1 ∧
      pos.z = (k : ℚ) * currentDistance (updateOptions Options options).interLayerDistance ops ∧
      (getBody L1 node.id).map Body.pos = some pos := by
  obtain ⟨hc, hd, _, hall⟩ := createLayout_consistent E Options g options L h
  obtain ⟨b, hb⟩ := hall node hn
  obtain ⟨lid, _, hm, hl⟩ := getLayer_of_body g L hc node.id b hb
  obtain ⟨L1, h1, hg1, hd1, hn1⟩ := runOps_spec E ops L
  have hl1 : getLayer L1.graph node.id = .ok (g.layers.indexOf lid : Int) := by
    rw [hg1, hc.graph_eq]; exact hl
  have hb1 : L1.nodeBodies node.id = some b := by rw [hn1]; exact hb
  refine ⟨g.layers.indexOf lid,
    { (L1.bodies b).pos with z := ((g.layers.indexOf lid : Int) : ℚ) * L1.interLayerDistance },
    { L1 with
      bodies := Function.update L1.bodies b
        { L1.bodies b with
          pos := { (L1.bodies b).pos with
            z := ((g.layers.indexOf lid : Int) : ℚ) * L1.interLayerDistance } } },
    hl, List.indexOf_lt_length.mpr hm, ?_, ?_, ?_⟩
  · simp only [bind_apply, h1]
    exact getNodePosition_of_body E L1 node.id b _ hl1 hb1
  · simp [hd1, hd]
  · simp [getBody, hb1]


/-! ## The springs of the simulators -/

theorem sum_springs_set (sims : List Simulator) :
    ∀ (k : Nat) (sim : Simulator) (s : Spring), sims[k]? = some sim →
      ((sims.set k { sim with springs := sim.springs ++ [s] }).map
        (fun x => x.springs.length)).sum =
      (sims.map (fun x => x.springs.length)).sum + 1 := by
  induction sims with
  | nil => intro k sim s h; simp at h
  | cons a rest ih =>
    intro k sim s h
    cases k with
    | zero =>
      simp only [List.getElem?_cons_zero, Option.some.injEq] at h
      subst h
      simp only [List.set_cons_zero, List.map_cons, List.sum_cons, List.length_append,
        List.length_singleton]
      omega
    | succ k =>
      simp only [List.getElem?_cons_succ] at h
      simp only [List.set_cons_succ, List.map_cons, List.sum_cons, ih k sim s h]
      omega

theorem map_springs_eq (l1 l2 : List Simulator) (hlen : l1.length = l2.length)
    (h : ∀ (i : Nat) (sim : Simulator), l2[i]? = some sim →
      ∃ sim1 : Simulator, l1[i]? = some sim1 ∧ sim1.springs = sim.springs) :
    l1.map Simulator.springs = l2.map Simulator.springs := by
  apply List.ext_getElem?
  intro i
  simp only [List.getElem?_map]
  by_cases hi : i < l2.length
  · obtain ⟨sim1, h1, e1⟩ := h i l2[i] (List.getElem?_eq_getElem hi)
    rw [h1, List.getElem?_eq_getElem hi]
    simp [e1]
  · rw [List.getElem?_eq_none (Nat.le_of_not_lt hi),
      List.getElem?_eq_none (by omega)]

theorem springTotal_eq_of_map (L1 L : Layout)
    (h : L1.physicsSimulators.map Simulator.springs = L.physicsSimulators.map Simulator.springs) :
    springTotal L1 = springTotal L := by
  have : ∀ l : List Simulator, l.map (fun s => s.springs.length) =
      (l.map Simulator.springs).map List.length := by
    intro l; simp
  simp only [springTotal, this, h]

theorem initNodes_springTotal (E : Engine) (g : Graph) (nodes : List Node) (L L1 : Layout)
    (hc : Consistent g L) (h : initNodes E nodes L = Outcome.ok () L1) :
    springTotal L1 = springTotal L := by
  obtain ⟨hc1, _, _, _, _, _, hsim⟩ := initNodes_ok E g nodes L L1 hc h
  exact springTotal_eq_of_map _ _
    (map_springs_eq _ _ (hc1.sims_length.trans hc.sims_length.symm) hsim)

theorem looseEq_iff_eq (E : Engine) (g : Graph)
    (hloose : ∀ a ∈ g.layers, ∀ b ∈ g.layers, looseEq E.toNumber a b = true → a = b)
    (a b : JSValue) (ha : a ∈ g.layers) (hb : b ∈ g.layers) :
    looseEq E.toNumber a b = true ↔ a = b :=
  ⟨hloose a ha b hb, fun h => h ▸ looseEq_refl _ _⟩

theorem initLinks_springTotal (E : Engine) (g : Graph)
    (hloose : ∀ a ∈ g.layers, ∀ b ∈ g.layers, looseEq E.toNumber a b = true → a = b)
    (links : List Link) :
    ∀ (L L1 : Layout), Consistent g L → initLinks E links L = Outcome.ok () L1 →
      springTotal L1 = springTotal L + links.countP (sameLayer g) := by
  induction links with
  | nil =>
    intro L L1 hc h
    simp only [initLinks, pure_apply, Outcome.ok.injEq, true_and] at h
    subst h
    simp
  | cons link rest ih =>
    intro L L1 hc h
    simp only [initLinks, bind_apply] at h
    cases h1 : initLink E link L with
    | throw e L2 => simp [h1] at h
    | ok u L2 =>
    simp only [h1] at h
    obtain ⟨hc2, _, _, _, bf, bt, lf, lt, _, _, hlf, hlt, hmf, hmt, hsame, hdiff⟩ :=
      initLink_ok E g L L2 link hc h1
    have hs : sameLayer g link = decide (lf = lt) := by
      have hgf : getLayer g link.fromId = .ok (g.layers.indexOf lf : Int) := by
        simp [getLayer, hlf, indexOf_of_mem _ _ hmf]
      have hgt : getLayer g link.toId = .ok (g.layers.indexOf lt : Int) := by
        simp [getLayer, hlt, indexOf_of_mem _ _ hmt]
      simp only [sameLayer, hgf, hgt, Nat.cast_inj, List.indexOf_inj hmf hmt]
    rw [ih L2 L1 hc2 h, List.countP_cons, hs]
    by_cases hft : lf = lt
    · obtain ⟨_, sim, hsim, hset⟩ := hsame ((looseEq_iff_eq E g hloose lf lt hmf hmt).mpr hft)
      have : springTotal L2 = springTotal L + 1 := by
        simp only [springTotal, hset]
        exact sum_springs_set _ _ _ _ hsim
      simp [hft, this]
      omega
    · have hne : looseEq E.toNumber lf lt = false :=
        Bool.eq_false_iff.mpr (fun h => hft ((looseEq_iff_eq E g hloose lf lt hmf hmt).mp h))
      have : springTotal L2 = springTotal L := by
        simp only [springTotal, (hdiff hne).2]
      simp [hft, this]

/-- After a successful construction on a graph whose layer ids `==` tells apart, the
simulators hold as many springs as the graph has links whose endpoints resolve to the
same layer. -/
theorem createLayout_springTotal (E : Engine) (Options : OptionsObject) (g : Graph)
    (options : Option (List (String × ℚ))) (L : Layout)
    (hloose : ∀ a ∈ g.layers, ∀ b ∈ g.layers, looseEq E.toNumber a b = true → a = b)
    (h : (createLayout E Options (some g) options).2 = .ok L) :
    springTotal L = g.links.countP (sameLayer g) := by
  obtain ⟨L1, h1, h2⟩ := createLayout_ok E Options g options L h
  obtain ⟨hc1, _⟩ := initNodes_ok E g g.nodes _ L1 (consistent_emptyLayout g _) h1
  rw [initLinks_springTotal E g hloose g.links L1 L hc1 h2,
    initNodes_springTotal E g g.nodes _ L1 (consistent_emptyLayout g _) h1]
  simp [springTotal, emptyLayout, createSimulator]

/-! ## The claims about a constructed layout -/

/-- C2: after a successful construction and any sequence of `step()` and
`setInterLayerDistance(d)` calls, `getNodePosition` of a node of the graph returns a
position whose `z` is the index of the node's layer in `graph.layers` times the
current inter-layer distance (the construction-time value, or the argument of the
most recent `setInterLayerDistance`), and that position is the one stored in the
node's body. -/
theorem getNodePosition_z_is_layer_times_distance (E : Engine) (Options : OptionsObject)
    (g : Graph) (options : Option (List (String × ℚ))) (L : Layout)
    (h : (createLayout E Options (some g) options).2 = .ok L)
    (ops : List Op) (node : Node) (hn : node ∈ g.nodes) :
    ∃ (k : Nat) (pos : Vector3d) (L1 : Layout),
      getLayer g node.id = .ok (k : Int) ∧ k < g.layers.length ∧
      (runOps E ops >>= fun _ => getNodePosition E node.id) L = Outcome.ok pos L1 ∧
      pos.z = (k : ℚ) * currentDistance L.interLayerDistance ops ∧
      (getBody L1 node.id).map Body.pos = some pos := by
  obtain ⟨_, hd, _, _⟩ := createLayout_consistent E Options g options L h
  rw [hd]
  exact getNodePosition_constructed E Options g options L h ops node hn

/-- C9: after a successful construction the body of every node of the graph has mass
`1 + n/4`, where `n` is the number of links `graph.getLinks` reports for the node
(links inside a layer and between layers alike), and mass `1` when the graph reports
no link list for the node. -/
theorem body_mass_after_construction (E : Engine) (Options : OptionsObject)
    (g : Graph) (options : Option (List (String × ℚ))) (L : Layout)
    (h : (createLayout E Options (some g) options).2 = .ok L)
    (node : Node) (hn : node ∈ g.nodes) :
    ∃ body, getBody L node.id = some body ∧
      body.mass = (match g.getLinks node.id with
        | some links => 1 + (links.length : ℚ) / 4
        | none => 1) := by
  obtain ⟨hc, _, _, hall⟩ := createLayout_consistent E Options g options L h
  obtain ⟨b, hb⟩ := hall node hn
  refine ⟨L.bodies b, by simp [getBody, hb], ?_⟩
  rw [hc.body_mass node.id b hb, nodeMass]
  cases g.getLinks node.id <;> rfl

/-- C3, amended: after a successful construction on a graph whose links have pairwise
distinct ids and whose layer list holds no two different values that `==` takes for
equal, `getLinkPosition(link.id)` is defined if and only if the two endpoints of the
link resolve to the same layer index; it is then the pair of the positions of the two
endpoint bodies, held by a spring of the simulator of that layer; for a link between
different layers it is undefined and no spring is registered under the link's id.
The simulators hold as many springs as the graph has links inside a layer. -/
theorem getLinkPosition_defined_iff_same_layer (E : Engine) (Options : OptionsObject)
    (g : Graph) (options : Option (List (String × ℚ))) (L : Layout)
    (h : (createLayout E Options (some g) options).2 = .ok L)
    (hid : (g.links.map Link.id).Nodup)
    (hloose : ∀ a ∈ g.layers, ∀ b ∈ g.layers, looseEq E.toNumber a b = true → a = b)
    (link : Link) (hl : link ∈ g.links) :
    (∃ (i j bf bt : Nat),
      getLayer g link.fromId = .ok (i : Int) ∧ getLayer g link.toId = .ok (j : Int) ∧
      L.nodeBodies link.fromId = some bf ∧ L.nodeBodies link.toId = some bt ∧
      ((getLinkPosition L link.id).isSome = true ↔ i = j) ∧
      (i = j →
        getLinkPosition L link.id = some ⟨(L.bodies bf).pos, (L.bodies bt).pos⟩ ∧
        L.springs link.id = some ⟨bf, bt, link.length⟩ ∧
        ∃ sim : Simulator, L.physicsSimulators[j]? = some sim ∧
          (⟨bf, bt, link.length⟩ : Spring) ∈ sim.springs) ∧
      (i ≠ j → getLinkPosition L link.id = none ∧ L.springs link.id = none)) ∧
    springTotal L = g.links.countP (sameLayer g) := by
  refine ⟨?_, createLayout_springTotal E Options g options L hloose h⟩
  obtain ⟨L1, h1, h2⟩ := createLayout_ok E Options g options L h
  obtain ⟨hc1, _, hs1, _, _, _, _⟩ :=
    initNodes_ok E g g.nodes _ L1 (consistent_emptyLayout g _) h1
  obtain ⟨hc, _, hn, _, _, _, hall⟩ := initLinks_ok E g g.links L1 L hc1 h2 hid
  obtain ⟨bf, bt, lf, lt, hbf, hbt, hlf, hlt, hmf, hmt, hsame0, hdiff0⟩ := hall link hl
  have hsame := fun e : lf = lt => hsame0 ((looseEq_iff_eq E g hloose lf lt hmf hmt).mpr e)
  have hdiff := fun ne : lf ≠ lt => hdiff0
    (Bool.eq_false_iff.mpr (fun e => ne ((looseEq_iff_eq E g hloose lf lt hmf hmt).mp e)))
  have hnone : L1.springs link.id = none := by rw [hs1]; rfl
  have hgf : getLayer g link.fromId = .ok (g.layers.indexOf lf : Int) := by
    simp [getLayer, hlf, indexOf_of_mem _ _ hmf]
  have hgt : getLayer g link.toId = .ok (g.layers.indexOf lt : Int) := by
    simp [getLayer, hlt, indexOf_of_mem _ _ hmt]
  have hiff : g.layers.indexOf lf = g.layers.indexOf lt ↔ lf = lt :=
    List.indexOf_inj hmf hmt
  rw [← hn] at hbf hbt
  refine ⟨_, _, bf, bt, hgf, hgt, hbf, hbt, ?_, ?_, ?_⟩
  · by_cases hft : lf = lt
    · simp [getLinkPosition, (hsame hft).1, hiff.mpr hft]
    · have hne : g.layers.indexOf lf ≠ g.layers.indexOf lt := fun e => hft (hiff.mp e)
      simp [getLinkPosition, hdiff hft, hnone, hne]
  · intro hij
    obtain ⟨hspr, sim, hsim, hmem⟩ := hsame (hiff.mp hij)
    exact ⟨by simp [getLinkPosition, hspr], hspr, sim, hsim, hmem⟩
  · intro hij
    have hft : lf ≠ lt := fun e => hij (hiff.mpr e)
    have : L.springs link.id = none := by rw [hdiff hft, hnone]
    exact ⟨by simp [getLinkPosition, this], this⟩


/-! ## The bounding volume -/

theorem foldl_max_spec (xs : List ℚ) :
    ∀ a : WithBot ℚ,
      a ≤ List.foldl (fun (m : WithBot ℚ) (x : ℚ) => max m (x : WithBot ℚ)) a xs ∧
      (∀ x ∈ xs, (x : WithBot ℚ) ≤ List.foldl (fun (m : WithBot ℚ) (x : ℚ) => max m (x : WithBot ℚ)) a xs) ∧
      (List.foldl (fun (m : WithBot ℚ) (x : ℚ) => max m (x : WithBot ℚ)) a xs = a ∨
        ∃ x ∈ xs, List.foldl (fun (m : WithBot ℚ) (x : ℚ) => max m (x : WithBot ℚ)) a xs = (x : WithBot ℚ)) := by
  induction xs with
  | nil => intro a; simp
  | cons y rest ih =>
    intro a
    obtain ⟨h1, h2, h3⟩ := ih (max a (y : WithBot ℚ))
    simp only [List.foldl_cons, List.mem_cons, forall_eq_or_imp, exists_eq_or_imp]
    refine ⟨le_trans (le_max_left _ _) h1, ⟨le_trans (le_max_right _ _) h1, h2⟩, ?_⟩
    rcases h3 with h3 | ⟨x, hx, h3⟩
    · rcases max_choice a (y : WithBot ℚ) with hm | hm
      · left; rw [h3, hm]
      · right; left; rw [h3, hm]
    · right; right; exact ⟨x, hx, h3⟩

theorem mathMax_isMaxOf (xs : List ℚ) (h : xs ≠ []) : IsMaxOf (mathMax xs) xs := by
  obtain ⟨_, h2, h3⟩ := foldl_max_spec xs ⊥
  obtain ⟨y, hy⟩ := List.exists_mem_of_ne_nil xs h
  rcases h3 with h3 | ⟨x, hx, h3⟩
  · have := h2 y hy
    rw [h3] at this
    simp at this
  · refine ⟨x, hx, h3, ?_⟩
    intro z hz
    have := h2 z hz
    rw [h3] at this
    exact WithBot.coe_le_coe.mp this

theorem getBoxes_spec (E : Engine) (L : Layout) (sims : List Simulator) :
    ∀ i : Nat, (getBoxes E L i sims).length = sims.length ∧
      ∀ (k : Nat) (sim : Simulator), sims[k]? = some sim →
        (getBoxes E L i sims)[k]? = some (E.getBBox (i + k) (sim.bodies.map L.bodies)) := by
  induction sims with
  | nil => intro i; simp [getBoxes]
  | cons s rest ih =>
    intro i
    refine ⟨by simp [getBoxes, (ih (i + 1)).1], ?_⟩
    intro k sim hk
    cases k with
    | zero =>
      simp only [List.getElem?_cons_zero, Option.some.injEq] at hk
      subst hk
      simp [getBoxes]
    | succ k =>
      simp only [List.getElem?_cons_succ] at hk
      simp only [getBoxes, List.getElem?_cons_succ]
      rw [(ih (i + 1)).2 k sim hk]
      congr 2
      omega

/-- C6: for every layout with at least one layer, `getGraphRect()` returns `x1`, `y1`,
`x2`, `y2` each equal to the greatest value of that field over the bounding boxes of
all per-layer simulators (the maximum for all four fields), `z1 = 0` and
`z2 = graph.layers.length * interLayerDistance + 15`. -/
theorem getGraphRect_is_max_of_boxes (E : Engine) (L : Layout)
    (h : 0 < L.physicsSimulators.length) :
    ∃ boxes : List BBox,
      boxes.length = L.physicsSimulators.length ∧
      (∀ (k : Nat) (sim : Simulator), L.physicsSimulators[k]? = some sim →
        boxes[k]? = some (E.getBBox k (sim.bodies.map L.bodies))) ∧
      IsMaxOf (getGraphRect E L).x1 (boxes.map BBox.x1) ∧
      IsMaxOf (getGraphRect E L).y1 (boxes.map BBox.y1) ∧
      IsMaxOf (getGraphRect E L).x2 (boxes.map BBox.x2) ∧
      IsMaxOf (getGraphRect E L).y2 (boxes.map BBox.y2) ∧
      (getGraphRect E L).z1 = 0 ∧
      (getGraphRect E L).z2 = (L.graph.layers.length : ℚ) * L.interLayerDistance + 15 := by
  obtain ⟨hlen, hget⟩ := getBoxes_spec E L L.physicsSimulators 0
  have hne : getBoxes E L 0 L.physicsSimulators ≠ [] := by
    intro e
    rw [e] at hlen
    simp at hlen
    omega
  refine ⟨getBoxes E L 0 L.physicsSimulators, hlen, ?_, ?_, ?_, ?_, ?_, rfl, rfl⟩
  · intro k sim hk
    simpa using hget k sim hk
  all_goals exact mathMax_isMaxOf _ (by simpa using hne)


/-! ## Layers that cannot be resolved -/

theorem layerId_error (node : Option Node) (e : JSError) (h : layerId node = .error e) :
    e = .TypeError := by
  unfold layerId at h
  cases node with
  | none => simp at h; exact h.symm
  | some n =>
    cases hl : n.layer with
    | none => simp [hl] at h; exact h.symm
    | some id => simp [hl] at h

theorem checkLinkLayer_error (toNumber : String → Option ℚ) (node1 node2 : Option Node)
    (layer : JSValue) (e : JSError)
    (h : checkLinkLayer toNumber node1 node2 layer = .error e) : e = .TypeError := by
  unfold checkLinkLayer at h
  cases h1 : layerId node1 with
  | error e1 =>
    simp only [h1, Except.error.injEq] at h
    exact h ▸ layerId_error _ _ h1
  | ok id1 =>
    simp only [h1] at h
    cases hid : looseEq toNumber id1 layer with
    | true =>
      simp only [hid, if_true] at h
      cases h2 : layerId node2 with
      | error e2 =>
        simp only [h2, Except.error.injEq] at h
        exact h ▸ layerId_error _ _ h2
      | ok id2 => simp [h2] at h
    | false => simp [hid] at h

theorem getSameLayerLinksLoop_error (toNumber : String → Option ℚ) (graph : Graph)
    (layer : JSValue) (links : List Link) :
    ∀ (i : Nat) (res : List (Option Link)) (e : JSError),
      getSameLayerLinksLoop toNumber graph layer links i res = .error e → e = .TypeError := by
  induction links with
  | nil => intro i res e h; simp [getSameLayerLinksLoop] at h
  | cons link rest ih =>
    intro i res e h
    unfold getSameLayerLinksLoop at h
    cases hc : checkLinkLayer toNumber (graph.getNode link.toId) (graph.getNode link.fromId)
        layer with
    | error e1 =>
      simp only [hc, Except.error.injEq] at h
      exact h ▸ checkLinkLayer_error _ _ _ _ _ hc
    | ok b =>
      cases b with
      | true => simp only [hc] at h; exact ih _ _ _ h
      | false => simp only [hc] at h; exact ih _ _ _ h

theorem neighborLoop_error (nodeBodies : Nat → Option Nat) (nodeId : Nat)
    (links : List (Option Link)) :
    ∀ (neighbors : List Nat) (e : JSError),
      neighborLoop nodeBodies nodeId links neighbors = .error e → e = .TypeError := by
  induction links with
  | nil => intro n e h; simp [neighborLoop] at h
  | cons l rest ih =>
    intro n e h
    cases l with
    | none => simp [neighborLoop] at h; exact h.symm
    | some link =>
      simp only [neighborLoop] at h
      cases ho : (if link.fromId ≠ nodeId then nodeBodies link.fromId
        else nodeBodies link.toId) with
      | none => simp only [ho] at h; exact ih _ _ h
      | some b => simp only [ho] at h; exact ih _ _ h

theorem getNeighborBodies_error (E : Engine) (L : Layout) (node : Node) (layer : JSValue)
    (e : JSError) (h : getNeighborBodies E L node layer = .error e) : e = .TypeError := by
  unfold getNeighborBodies at h
  cases hl : node.links with
  | none => simp [hl] at h
  | some links =>
    simp only [hl] at h
    cases hs : getSameLayerLinks E.toNumber L.graph links layer with
    | error e1 =>
      simp only [hs, Except.error.injEq] at h
      exact h ▸ getSameLayerLinksLoop_error _ _ _ _ _ _ _ hs
    | ok sl =>
      simp only [hs] at h
      exact neighborLoop_error _ _ _ _ _ h

/-- Without a layer argument there is no simulator to place the body in. -/
theorem newBodyPosition_none (E : Engine) (L : Layout) (node : Node) :
    newBodyPosition E L node none = .error .TypeError ∨
      ∃ pos, newBodyPosition E L node none = .ok pos := by
  unfold newBodyPosition
  cases node.position with
  | some pos => exact Or.inr ⟨pos, rfl⟩
  | none =>
    cases hn : getNeighborBodies E L node JSValue.undefined with
    | error e =>
      left
      rw [getNeighborBodies_error _ _ _ _ _ hn]
    | ok ns => left; rfl

/-- The call `initBody(nodeId)` with one argument throws whatever the state is, and
changes nothing. -/
theorem initBody_none_throws (E : Engine) (L : Layout) (nodeId : Nat) :
    ∃ e, initBody E nodeId none L = Outcome.throw e L ∧
      (L.graph.getNode nodeId ≠ none → e = .TypeError) := by
  unfold initBody
  cases hb : L.nodeBodies nodeId with
  | some b => exact ⟨_, rfl, fun _ => rfl⟩
  | none =>
    cases hn : L.graph.getNode nodeId with
    | none => exact ⟨_, rfl, fun h => absurd rfl h⟩
    | some node =>
      rcases newBodyPosition_none E L node with hp | ⟨pos, hp⟩
      · simp only [hp]
        exact ⟨_, rfl, fun _ => rfl⟩
      · simp only [hp]
        exact ⟨_, rfl, fun _ => rfl⟩

/-- C8, amended: the module has no unknown-layer error.  For a node of the graph whose
layer attribute is missing, `getLayer` and `getNodePosition` fail with a TypeError.
For a node whose layer id does not occur in `graph.layers`, `getLayer` returns the
integer `-1` without an error; `getNodePosition` then fails with a TypeError when the
node has no body yet, and returns `z = -1 * interLayerDistance` when it has one. -/
theorem getLayer_of_unresolvable_layer (E : Engine) (L : Layout) (nodeId : Nat) (node : Node)
    (hn : L.graph.getNode nodeId = some node) :
    (node.layer = none →
      getLayer L.graph nodeId = .error .TypeError ∧
      getNodePosition E nodeId L = Outcome.throw .TypeError L) ∧
    (∀ id, node.layer = some id → id ∉ L.graph.layers →
      getLayer L.graph nodeId = .ok (-1) ∧
      (L.nodeBodies nodeId = none →
        getNodePosition E nodeId L = Outcome.throw .TypeError L) ∧
      (∀ b, L.nodeBodies nodeId = some b →
        ∃ pos L1, getNodePosition E nodeId L = Outcome.ok pos L1 ∧
          pos.z = -L.interLayerDistance)) := by
  constructor
  · intro hl
    have hg : getLayer L.graph nodeId = .error .TypeError := by
      simp [getLayer, layerId, hn, hl]
    exact ⟨hg, by simp [getNodePosition, hg]⟩
  · intro id hl hid
    have hg : getLayer L.graph nodeId = .ok (-1) := by
      simp [getLayer, layerId, hn, hl, indexOf, hid]
    refine ⟨hg, ?_, ?_⟩
    · intro hb
      obtain ⟨e, he, hte⟩ := initBody_none_throws E L nodeId
      rw [hte (by rw [hn]; exact Option.some_ne_none _)] at he
      simp [getNodePosition, getInitializedBody, hg, hb, he]
    · intro b hb
      refine ⟨_, _, getNodePosition_of_body E L nodeId b (-1) hg hb, ?_⟩
      simp


/-! ## Options, graph changes and the examples -/

/-- A batch that starts by adding a node throws at that change, whatever the state,
and leaves the state as it was. -/
theorem onGraphChanged_add_node (E : Engine) (L : Layout) (node : Node)
    (link : Option Link) (rest : List Change) :
    ∃ e, onGraphChanged E
      ({ changeType := ChangeType.add, node := some node, link := link } :: rest) L =
        Outcome.throw e L := by
  obtain ⟨e, he, _⟩ := initBody_none_throws E L node.id
  exact ⟨e, by simp [onGraphChanged, applyChange, he]⟩

/-- Releasing a node that has a body drops the registry entry and then raises the
ReferenceError; the simulators are not touched. -/
theorem releaseNode_with_body (L : Layout) (node : Node) (b : Nat)
    (h : L.nodeBodies node.id = some b) :
    releaseNode node L = Outcome.throw .ReferenceError
      { L with nodeBodies := Function.update L.nodeBodies node.id none } := by
  simp [releaseNode, h]

/-- Releasing a node that has no body does nothing. -/
theorem releaseNode_without_body (L : Layout) (node : Node)
    (h : L.nodeBodies node.id = none) :
    releaseNode node L = Outcome.ok () L := by
  simp [releaseNode, h]

theorem builtLayout_spec (E : Engine) (Options : OptionsObject) (graph : Graph)
    (options : Option (List (String × ℚ)))
    (h : constructionSucceeds E Options graph options = true) :
    (createLayout E Options (some graph) options).2 =
      .ok (builtLayout E Options graph options) := by
  unfold constructionSucceeds at h
  unfold builtLayout
  cases hr : (createLayout E Options (some graph) options).2 with
  | ok L => rfl
  | error e => simp [hr] at h

theorem mergeOptions_interLayerDistance (o : List (String × ℚ)) :
    ∀ Options : OptionsObject, (∀ kv ∈ o, kv.1 ≠ "interLayerDistance") →
      (mergeOptions Options o).interLayerDistance = Options.interLayerDistance := by
  induction o with
  | nil => intro Options _; rfl
  | cons kv rest ih =>
    intro Options h
    obtain ⟨key, value⟩ := kv
    have hk : key ≠ "interLayerDistance" := h (key, value) (List.mem_cons_self _ _)
    rw [mergeOptions, ih _ (fun kv hkv => h kv (List.mem_cons_of_mem _ hkv))]
    simp [OptionsObject.assign, hk]

theorem mergeOptions_requested (o : List (String × ℚ)) :
    ∀ Options : OptionsObject,
      (mergeOptions Options o).interLayerDistance =
        (match requestedDistance o with
          | some v => v
          | none => Options.interLayerDistance) := by
  induction o with
  | nil => intro Options; rfl
  | cons kv rest ih =>
    intro Options
    obtain ⟨key, value⟩ := kv
    rw [mergeOptions, ih, requestedDistance]
    cases requestedDistance rest with
    | some w => rfl
    | none =>
      by_cases hk : key = "interLayerDistance" <;> simp [OptionsObject.assign, hk]

/-- C2 at the node 3 of `crossGraph`, after a step, a change of the distance to 30 and
another step. -/
theorem getNodePosition_z_is_layer_times_distance_witness :
    (createLayout exampleEngine initialOptions (some crossGraph) none).2 = .ok crossLayout ∧
    nodeC ∈ crossGraph.nodes ∧
    ∃ (k : Nat) (pos : Vector3d) (L1 : Layout),
      getLayer crossGraph nodeC.id = .ok (k : Int) ∧ k < crossGraph.layers.length ∧
      (runOps exampleEngine [Op.step, Op.setInterLayerDistance 30, Op.step] >>=
        fun _ => getNodePosition exampleEngine nodeC.id) crossLayout = Outcome.ok pos L1 ∧
      pos.z = (k : ℚ) * currentDistance crossLayout.interLayerDistance
        [Op.step, Op.setInterLayerDistance 30, Op.step] ∧
      (getBody L1 nodeC.id).map Body.pos = some pos :=
  ⟨builtLayout_spec _ _ _ _ (by decide!), by decide!,
    getNodePosition_z_is_layer_times_distance exampleEngine initialOptions crossGraph none
      crossLayout (builtLayout_spec _ _ _ _ (by decide!))
      [Op.step, Op.setInterLayerDistance 30, Op.step] nodeC (by decide!)⟩

/-- C9 at the node 3 of `crossGraph`, which has one link, to another layer. -/
theorem body_mass_after_construction_witness :
    (createLayout exampleEngine initialOptions (some crossGraph) none).2 = .ok crossLayout ∧
    nodeC ∈ crossGraph.nodes ∧
    ∃ body, getBody crossLayout nodeC.id = some body ∧
      body.mass = (match crossGraph.getLinks nodeC.id with
        | some links => 1 + (links.length : ℚ) / 4
        | none => 1) :=
  ⟨builtLayout_spec _ _ _ _ (by decide!), by decide!,
    body_mass_after_construction exampleEngine initialOptions crossGraph none crossLayout
      (builtLayout_spec _ _ _ _ (by decide!)) nodeC (by decide!)⟩

/-- C3 fails as stated, at two inputs.  On `mixedGraph`, whose layers are `'1'` and
`1`, node 1 resolves to layer 0 and node 2 to layer 1, and yet link 7 between them
gets a spring and a link position, because `'1' == 1`.  On `sharedIdGraph` the link
between the layers 0 and 1 has the id of the link inside layer 0, and
`getLinkPosition` of that id is defined. -/
theorem getLinkPosition_defined_across_layers :
    (constructionSucceeds exampleEngine initialOptions mixedGraph none = true ∧
      linkAB ∈ mixedGraph.links ∧
      getLayer mixedGraph linkAB.fromId = .ok 0 ∧ getLayer mixedGraph linkAB.toId = .ok 1 ∧
      (getLinkPosition mixedLayout linkAB.id).isSome = true ∧
      springTotal mixedLayout = 1) ∧
    (constructionSucceeds exampleEngine initialOptions sharedIdGraph none = true ∧
      linkAC7 ∈ sharedIdGraph.links ∧
      getLayer sharedIdGraph linkAC7.fromId = .ok 0 ∧
      getLayer sharedIdGraph linkAC7.toId = .ok 1 ∧
      (getLinkPosition sharedIdLayout linkAC7.id).isSome = true) :=
  ⟨⟨by decide!, by decide!, by rfl, by rfl, by decide!, by decide!⟩,
    ⟨by decide!, by decide!, by rfl, by rfl, by decide!⟩⟩

/-- C3, amended, at the link of `crossGraph` between the two layers. -/
theorem getLinkPosition_defined_iff_same_layer_witness :
    (createLayout exampleEngine initialOptions (some crossGraph) none).2 = .ok crossLayout ∧
    (crossGraph.links.map Link.id).Nodup ∧
    (∀ a ∈ crossGraph.layers, ∀ b ∈ crossGraph.layers,
      looseEq exampleEngine.toNumber a b = true → a = b) ∧
    linkAC ∈ crossGraph.links ∧
    (∃ (i j bf bt : Nat),
      getLayer crossGraph linkAC.fromId = .ok (i : Int) ∧
      getLayer crossGraph linkAC.toId = .ok (j : Int) ∧
      crossLayout.nodeBodies linkAC.fromId = some bf ∧
      crossLayout.nodeBodies linkAC.toId = some bt ∧
      ((getLinkPosition crossLayout linkAC.id).isSome = true ↔ i = j) ∧
      (i = j →
        getLinkPosition crossLayout linkAC.id =
          some ⟨(crossLayout.bodies bf).pos, (crossLayout.bodies bt).pos⟩ ∧
        crossLayout.springs linkAC.id = some ⟨bf, bt, linkAC.length⟩ ∧
        ∃ sim : Simulator, crossLayout.physicsSimulators[j]? = some sim ∧
          (⟨bf, bt, linkAC.length⟩ : Spring) ∈ sim.springs) ∧
      (i ≠ j → getLinkPosition crossLayout linkAC.id = none ∧
        crossLayout.springs linkAC.id = none)) ∧
    springTotal crossLayout = crossGraph.links.countP (sameLayer crossGraph) :=
  ⟨builtLayout_spec _ _ _ _ (by decide!), by decide!, by decide!, by decide!,
    getLinkPosition_defined_iff_same_layer exampleEngine initialOptions crossGraph none
      crossLayout (builtLayout_spec _ _ _ _ (by decide!)) (by decide!) (by decide!)
      linkAC (by decide!)⟩

/-- C6 at the layout constructed on `crossGraph`. -/
theorem getGraphRect_is_max_of_boxes_witness :
    0 < crossLayout.physicsSimulators.length ∧
    ∃ boxes : List BBox,
      boxes.length = crossLayout.physicsSimulators.length ∧
      (∀ (k : Nat) (sim : Simulator), crossLayout.physicsSimulators[k]? = some sim →
        boxes[k]? = some (exampleEngine.getBBox k (sim.bodies.map crossLayout.bodies))) ∧
      IsMaxOf (getGraphRect exampleEngine crossLayout).x1 (boxes.map BBox.x1) ∧
      IsMaxOf (getGraphRect exampleEngine crossLayout).y1 (boxes.map BBox.y1) ∧
      IsMaxOf (getGraphRect exampleEngine crossLayout).x2 (boxes.map BBox.x2) ∧
      IsMaxOf (getGraphRect exampleEngine crossLayout).y2 (boxes.map BBox.y2) ∧
      (getGraphRect exampleEngine crossLayout).z1 = 0 ∧
      (getGraphRect exampleEngine crossLayout).z2 =
        (crossLayout.graph.layers.length : ℚ) * crossLayout.interLayerDistance + 15 :=
  ⟨by decide!, getGraphRect_is_max_of_boxes exampleEngine crossLayout (by decide!)⟩

/-- C8 fails as stated: for a node whose layer id `cellar` does not occur in
`graph.layers`, `getLayer` returns the integer `-1` and raises nothing. -/
theorem getLayer_unknown_layer_returns_integer :
    strayGraph.getNode 1 =
      some { id := 1, layer := some (JSValue.string "cellar"), position := none,
             links := none, isPinned := false } ∧
    JSValue.string "cellar" ∉ strayGraph.layers ∧
    getLayer strayGraph 1 = .ok (-1) :=
  ⟨by decide!, by decide!, by rfl⟩

/-- C8, amended, at the node of `strayGraph`, which has no body. -/
theorem getLayer_of_unresolvable_layer_witness :
    (emptyLayout strayGraph 100).graph.getNode 1 =
      some { id := 1, layer := some (JSValue.string "cellar"), position := none,
             links := none, isPinned := false } ∧
    getLayer (emptyLayout strayGraph 100).graph 1 = .ok (-1) ∧
    getNodePosition exampleEngine 1 (emptyLayout strayGraph 100) =
      Outcome.throw .TypeError (emptyLayout strayGraph 100) :=
  ⟨by decide!,
    ((getLayer_of_unresolvable_layer exampleEngine (emptyLayout strayGraph 100) 1
      { id := 1, layer := some (JSValue.string "cellar"), position := none, links := none,
        isPinned := false }
      (by decide!)).2 (JSValue.string "cellar") rfl (by decide!)).1,
    ((getLayer_of_unresolvable_layer exampleEngine (emptyLayout strayGraph 100) 1
      { id := 1, layer := some (JSValue.string "cellar"), position := none, links := none,
        isPinned := false }
      (by decide!)).2 (JSValue.string "cellar") rfl (by decide!)).2.1 rfl⟩

/-- C4 at a failing input: on the layout of `scenarioGraph`, the batch that adds node 4
and then the link between node 2 and node 4 (both of layer `top`) ends in a TypeError
at the first change; node 4 gets no body and the link no spring. -/
theorem onGraphChanged_add_node_throws :
    constructionSucceeds exampleEngine initialOptions scenarioGraph none = true ∧
    (onGraphChanged exampleEngine growBatch
      { scenarioLayout with graph := grownGraph }).error? = some JSError.TypeError ∧
    getBody (onGraphChanged exampleEngine growBatch
      { scenarioLayout with graph := grownGraph }).state 4 = none ∧
    (onGraphChanged exampleEngine growBatch
      { scenarioLayout with graph := grownGraph }).state.springs 9 = none := by
  decide!

/-- C5 at a failing input: node 3 has a body; the batch that removes node 3 ends in a
ReferenceError, after the body left the registry (`getBody` is undefined) and
without any change to the simulators, which still hold the body; a second removal
raises nothing. -/
theorem releaseNode_raises_reference_error :
    constructionSucceeds exampleEngine initialOptions scenarioGraph none = true ∧
    (getBody scenarioLayout 3).isSome = true ∧
    (onGraphChanged exampleEngine shrinkBatch
      { scenarioLayout with graph := shrunkGraph }).error? = some JSError.ReferenceError ∧
    getBody (onGraphChanged exampleEngine shrinkBatch
      { scenarioLayout with graph := shrunkGraph }).state 3 = none ∧
    (onGraphChanged exampleEngine shrinkBatch
      { scenarioLayout with graph := shrunkGraph }).state.physicsSimulators =
        scenarioLayout.physicsSimulators ∧
    (onGraphChanged exampleEngine shrinkBatch
      (onGraphChanged exampleEngine shrinkBatch
        { scenarioLayout with graph := shrunkGraph }).state).error? = none := by
  decide!

/-- C7 fails as stated, at two settings maps.  The simulators have the array `bodies`:
`updatePhysics({bodies: 1})` finds the member truthy, calls it and ends in a TypeError.
`updatePhysics({step: 5})` calls the method `step` of every simulator in the settings
loop and once more afterwards, two steps on each simulator instead of one. -/
theorem updatePhysics_throws_or_steps_twice :
    constructionSucceeds exampleEngine initialOptions scenarioGraph none = true ∧
    simulatorMember exampleEngine "bodies" = Member.value ∧
    (updatePhysics exampleEngine [("bodies", 1)] scenarioLayout).error? =
      some JSError.TypeError ∧
    (updatePhysics exampleEngine [("step", 5)] scenarioLayout).error? = none ∧
    (updatePhysics exampleEngine [("step", 5)] scenarioLayout).state.calls =
      [SimCall.step 0, SimCall.step 1, SimCall.fire 0 false, SimCall.step 0,
        SimCall.fire 1 false, SimCall.step 1] ∧
    scenarioLayout.physicsSimulators.map Simulator.steps = [0, 0] ∧
    (updatePhysics exampleEngine [("step", 5)] scenarioLayout).state.physicsSimulators.map
      Simulator.steps = [2, 2] := by
  decide!

/-- C7, amended, at the settings `{springLength: 5, foo: 1}`, of which the first names
a setter and the second no member. -/
theorem updatePhysics_invokes_setters_then_steps_witness :
    (∀ kv ∈ [("springLength", (5 : ℚ)), ("foo", (1 : ℚ))],
      simulatorMember exampleEngine kv.1 = Member.absent ∨
      simulatorMember exampleEngine kv.1 = Member.setter) ∧
    ∃ L1, updatePhysics exampleEngine [("springLength", 5), ("foo", 1)] scenarioLayout =
        Outcome.ok () L1 ∧
      L1.calls = scenarioLayout.calls ++
        setterCalls exampleEngine scenarioLayout.physicsSimulators.length
          [("springLength", 5), ("foo", 1)] ++
        (List.range scenarioLayout.physicsSimulators.length).flatMap
          (fun i => [SimCall.fire i false, SimCall.step i]) ∧
      (∀ (i : Nat) (sim : Simulator), scenarioLayout.physicsSimulators[i]? = some sim →
        L1.physicsSimulators[i]? = some
          { sim with
            settings := sim.settings ++
              [("springLength", (5 : ℚ)), ("foo", (1 : ℚ))].filter
                (fun kv => isSetter exampleEngine kv.1)
            steps := sim.steps + 1 }) ∧
      (∀ kv ∈ [("springLength", (5 : ℚ)), ("foo", (1 : ℚ))],
        simulatorMember exampleEngine kv.1 = Member.setter →
        ∀ i < scenarioLayout.physicsSimulators.length,
          SimCall.invoke i kv.1 kv.2 ∈ L1.calls) :=
  ⟨by decide!,
    updatePhysics_invokes_setters_then_steps exampleEngine
      [("springLength", 5), ("foo", 1)] scenarioLayout (by decide!)⟩

/-- C10 fails as stated: after a layout was constructed with the option
`interLayerDistance: 50`, a layout constructed without options has distance 50, so
`getGraphRect().z2` is 115 and `getNodePosition(3).z` is 50 for the node of layer
index 1. -/
theorem default_distance_depends_on_earlier_layouts :
    constructionSucceeds exampleEngine initialOptions scenarioGraph
      (some [("interLayerDistance", 50)]) = true ∧
    (createLayout exampleEngine usedOptions (some scenarioGraph) none).2.toOption.map
      (fun L => (L.interLayerDistance, (getGraphRect exampleEngine L).z2,
        (getNodePosition exampleEngine 3 L).value?.map Vector3d.z)) =
      some (50, 115, some 50) ∧
    (115 : ℚ) ≠ 100 * (scenarioGraph.layers.length : ℚ) + 15 ∧
    getLayer scenarioGraph 3 = .ok 1 ∧ (50 : ℚ) ≠ 100 * 1 :=
  ⟨by decide!, by decide!, by decide!, by rfl, by decide!⟩

/-- C10, amended: every construction, also one that throws, leaves in the process-wide
`Options` object the `interLayerDistance` that its options give, and leaves the value
it found there when it has no options argument or the options do not contain
`interLayerDistance`; the value found is 100 when the module is loaded.  The layout
uses the value left in `Options`: `getGraphRect().z2` is that value times the number
of layers plus 15, and `getNodePosition(n).z` is that value times the layer index.  So
a layout constructed without `interLayerDistance` uses 100 only as long as no earlier
construction has stored another value. -/
theorem default_distance_is_current_Options (E : Engine) (Options : OptionsObject)
    (g : Graph) (options : Option (List (String × ℚ))) :
    (createLayout E Options (some g) options).1.interLayerDistance =
      distanceAfter Options options ∧
    (∀ o v, options = some o → requestedDistance o = some v →
      (createLayout E Options (some g) options).1.interLayerDistance = v) ∧
    (∀ v, options = some [("interLayerDistance", v)] →
      (createLayout E Options (some g) options).1.interLayerDistance = v) ∧
    ((∀ o, options = some o → ∀ kv ∈ o, kv.1 ≠ "interLayerDistance") →
      (createLayout E Options (some g) options).1.interLayerDistance =
        Options.interLayerDistance) ∧
    initialOptions.interLayerDistance = 100 ∧
    ∀ L, (createLayout E Options (some g) options).2 = .ok L →
      L.interLayerDistance = (createLayout E Options (some g) options).1.interLayerDistance ∧
      (getGraphRect E L).z2 =
        (g.layers.length : ℚ) *
          (createLayout E Options (some g) options).1.interLayerDistance + 15 ∧
      ∀ node ∈ g.nodes, ∃ (k : Nat) (pos : Vector3d) (L1 : Layout),
        getLayer g node.id = .ok (k : Int) ∧
        getNodePosition E node.id L = Outcome.ok pos L1 ∧
        pos.z = (createLayout E Options (some g) options).1.interLayerDistance * (k : ℚ) := by
  have hfst := createLayout_fst E Options g options
  have hafter : (updateOptions Options options).interLayerDistance =
      distanceAfter Options options := by
    cases options with
    | none => rfl
    | some o => exact mergeOptions_requested o Options
  rw [hfst]
  refine ⟨hafter, ?_, ?_, ?_, rfl, ?_⟩
  · intro o v ho hv
    subst ho
    rw [hafter]
    simp [distanceAfter, hv]
  · intro v ho
    subst ho
    rw [hafter]
    simp [distanceAfter, requestedDistance]
  · intro hopt
    cases options with
    | none => rfl
    | some o => exact mergeOptions_interLayerDistance o Options (hopt o rfl)
  · intro L h
    obtain ⟨hc, hd, _, _⟩ := createLayout_consistent E Options g options L h
    refine ⟨hd, ?_, ?_⟩
    · simp [getGraphRect, hc.graph_eq, hd]
    · intro node hn
      obtain ⟨k, pos, L1, hk, _, hrun, hz, _⟩ :=
        getNodePosition_constructed E Options g options L h [] node hn
      refine ⟨k, pos, L1, hk, ?_, ?_⟩
      · simpa [runOps] using hrun
      · rw [hz, mul_comm]; rfl

/-- C10, amended, at a construction with the option `interLayerDistance: 50` and a
construction without options after it: the first stores 50 and the second uses it. -/
theorem default_distance_is_current_Options_witness :
    (createLayout exampleEngine initialOptions (some scenarioGraph)
      (some [("interLayerDistance", 50)])).1.interLayerDistance = 50 ∧
    (createLayout exampleEngine usedOptions (some scenarioGraph) none).2 = .ok laterLayout ∧
    laterLayout.interLayerDistance =
      (createLayout exampleEngine usedOptions (some scenarioGraph) none).1.interLayerDistance ∧
    (createLayout exampleEngine usedOptions (some scenarioGraph) none).1.interLayerDistance =
      usedOptions.interLayerDistance ∧
    usedOptions.interLayerDistance = 50 :=
  ⟨(default_distance_is_current_Options exampleEngine initialOptions scenarioGraph
      (some [("interLayerDistance", 50)])).2.2.1 50 rfl,
    builtLayout_spec _ _ _ _ (by decide!),
    ((default_distance_is_current_Options exampleEngine usedOptions scenarioGraph
      none).2.2.2.2.2 laterLayout (builtLayout_spec _ _ _ _ (by decide!))).1,
    (default_distance_is_current_Options exampleEngine usedOptions scenarioGraph
      none).2.2.2.1 (fun _ ho => Option.noConfusion ho),
    by decide!⟩

end MultilayerLayout3d
